import Mathlib

/-!
Verification of the path-command interpreter of canto.js (src/canto.js).

The interpreter is embedded shallowly:

* JavaScript numeric values are modelled by `JNum`: an exact rational,
  `NaN`, or `undefined`.  The commands in the source only add and subtract
  coordinates, so exact rationals model the arithmetic; `undefined`
  arithmetic yields `NaN` exactly as in JavaScript.
* The mutable fields of a Canto object that the path commands touch
  (`currentX/Y`, `startSubpathX/Y`, `_lastCCP`, `_lastQCP`, `_pathIsEmpty`)
  become the structure `CantoState`.  `resetCantoState` (source line 236)
  does not set `_pathIsEmpty`, so after construction that property is
  `undefined`; the model keeps it as an `Option Bool` whose `none` value is
  JavaScript `undefined`.
* Each SVG command (`M`, `m`, `L`, `l`, `H`, `h`, `V`, `v`, `C`, `c`, `Q`,
  `q`, `S`, `s`, `T`, `t`, `A`, `a`, `z`) becomes a function from a state
  and a JavaScript argument list to a `Res`: the final state, the list of
  primitive drawing-surface calls emitted before returning or throwing,
  and an optional thrown error.  Emissions made before a throw are kept,
  matching the JavaScript behaviour where surface calls already made
  persist when an exception propagates.
* The trigonometric tail of the `A` command (source lines 511..583), which
  calls `Math.sin`/`cos`/`acos` and ends in `this.ellipse(...)`, cannot
  throw and is irrational-valued; commands are parametrised by an
  abstract `ArcTail` standing for exactly that tail.  Its input records
  every value the tail reads.  The radii-correction and centre-offset
  arithmetic of that tail (source lines 536..559) is embedded separately
  over the reals as `Canto.arcRadiiCenter`.
* The string grammar of `svgpath` (source lines 263..288) is embedded as a
  character-level scanner equivalent to the two global regular expressions
  `svgpathelt` and `svgnumber` under JavaScript leftmost/greedy matching,
  followed by exact decimal parsing in place of `Number`.
-/

/-- A JavaScript numeric value as used by the path commands: an exact
rational standing for an ordinary number, `NaN`, or `undefined`. -/
inductive JNum where
  | num (q : ℚ)
  | nan
  | undef
deriving DecidableEq, Repr

/-- JavaScript `+` on the values the commands combine: any operand that is
`NaN` or `undefined` produces `NaN`. -/
def JNum.add : JNum → JNum → JNum
  | .num a, .num b => .num (a + b)
  | _, _ => .nan

/-- JavaScript `-` with the same contagion as `JNum.add`. -/
def JNum.sub : JNum → JNum → JNum
  | .num a, .num b => .num (a - b)
  | _, _ => .nan

instance : Add JNum := ⟨JNum.add⟩

instance : Sub JNum := ⟨JNum.sub⟩

/-- JavaScript truthiness of a numeric-or-undefined value: nonzero numbers
are truthy; `0`, `NaN` and `undefined` are falsy. -/
def JNum.truthy : JNum → Bool
  | .num q => q != 0
  | _ => false

/-- A primitive call on the underlying 2D drawing surface (the `this._.*`
calls of the source). -/
inductive Prim where
  | moveTo (x y : JNum)
  | lineTo (x y : JNum)
  | bezier (c1x c1y c2x c2y x y : JNum)
  | quad (cx cy x y : JNum)
  | closePath
  | beginPath
deriving DecidableEq, Repr

/-- The error kinds thrown by the interpreter, named after the spec's error
design; in the source they are `Error` objects distinguished by message
("wrong number of arguments", "No current point...", "Last command was not
a cubic bezier", "Bad path: ..."). -/
inductive JErr where
  | argumentCount
  | noCurrentPoint
  | noSmoothContext
  | malformedPath
deriving DecidableEq, Repr

/-- The path-related mutable state of a Canto object.  `none` in `lastCCP`
and `lastQCP` is JavaScript `null`/`undefined` (the source only ever tests
their truthiness); `pathIsEmpty = none` is the `undefined` value the
`_pathIsEmpty` property has right after construction, because
`resetCantoState` (source line 236) never initialises it. -/
structure CantoState where
  currentX : JNum
  currentY : JNum
  startSubpathX : JNum
  startSubpathY : JNum
  lastCCP : Option (JNum × JNum)
  lastQCP : Option (JNum × JNum)
  pathIsEmpty : Option Bool
deriving DecidableEq, Repr

/-- The result of running one command: final state, primitive calls emitted
(before returning or before the throw), and the thrown error if any. -/
structure Res where
  state : CantoState
  out : List Prim
  err : Option JErr
deriving DecidableEq, Repr

/-- A successful result. -/
def okR (st : CantoState) (out : List Prim) : Res := ⟨st, out, none⟩

/-- A throw: nothing further is emitted and the state is as at the throw. -/
def throwR (st : CantoState) (e : JErr) : Res := ⟨st, [], some e⟩

/-- Sequencing: run `f` from the state of `r` unless `r` threw; emissions
accumulate, mirroring JavaScript control flow with persistent surface
calls. -/
def Res.andThen (r : Res) (f : CantoState → Res) : Res :=
  match r.err with
  | some _ => r
  | none =>
    let r2 := f r.state
    ⟨r2.state, r.out ++ r2.out, r2.err⟩

/-- Reading `arguments[i]`: out-of-range access yields `undefined`. -/
def Canto.getArg (args : List JNum) (i : ℕ) : JNum :=
  args.getD i JNum.undef

/-- The argument-count test of `check(args, n, m, min)` (source line 203):
`true` means the counts are acceptable, `false` that the source throws
"wrong number of arguments".  The `if` mirrors the JavaScript truthiness
test `m ? args.length % m : args.length`. -/
def Canto.check (args : List JNum) (n m mn : ℕ) : Bool :=
  (n == (if m == 0 then args.length else args.length % m)) && decide (mn ≤ args.length)

/-- The state after the construction-time `resetCantoState` (source line
236): everything `undefined`, and `_pathIsEmpty` untouched, hence also
`undefined` (`none`). -/
def Canto.initState : CantoState :=
  { currentX := .undef, currentY := .undef
    startSubpathX := .undef, startSubpathY := .undef
    lastCCP := none, lastQCP := none, pathIsEmpty := none }

/-- `setcurrent` (source line 155): sets the current point, clears both
control points (to `null`) and marks the path nonempty. -/
def Canto.setcurrent (st : CantoState) (x y : JNum) : CantoState :=
  { st with currentX := x, currentY := y
            lastCCP := none, lastQCP := none, pathIsEmpty := some false }

/-- The two-argument core of the absolute move `M` (source line 318):
emit `moveTo`, set the current point and the subpath start.  `M` with
exactly two arguments never recurses into `L`, so this core breaks the
`ensure`/`moveTo`/`L` call cycle of the source. -/
def Canto.M2 (st : CantoState) (x y : JNum) : Res :=
  okR { Canto.setcurrent st x y with startSubpathX := x, startSubpathY := y }
      [Prim.moveTo x y]

/-- `ensure` (source line 151): if `_pathIsEmpty` is truthy (that is,
exactly the value `true`; after construction it is `undefined` and hence
falsy), behave as a move to the given point. -/
def Canto.ensure (st : CantoState) (x y : JNum) : Res :=
  if st.pathIsEmpty = some true then Canto.M2 st x y else okR st []

/-- The emission loop of the absolute line command `L`: one `lineTo` per
coordinate pair, returning the last pair (the carried pair is only the
initial value of the source's `x, y` locals, dead when a pair exists). -/
def Canto.LLoop : List JNum → JNum × JNum → (JNum × JNum) × List Prim
  | x :: y :: rest, _ =>
    let (pe, out) := Canto.LLoop rest (x, y)
    (pe, Prim.lineTo x y :: out)
  | _, p => (p, [])

/-- Absolute lineto `L` (source line 297). -/
def Canto.L (st : CantoState) (args : List JNum) : Res :=
  if Canto.check args 0 2 2 then
    (Canto.ensure st (Canto.getArg args 0) (Canto.getArg args 1)).andThen fun s1 =>
      let (pe, out) := Canto.LLoop args (Canto.getArg args 0, Canto.getArg args 1)
      okR (Canto.setcurrent s1 pe.1 pe.2) out
  else throwR st .argumentCount

/-- The emission loop of the relative line command `l`: the carried pair is
the running current point (`cx, cy` in the source). -/
def Canto.lLoop : List JNum → JNum × JNum → (JNum × JNum) × List Prim
  | dx :: dy :: rest, (cx, cy) =>
    let n := (cx + dx, cy + dy)
    let (pe, out) := Canto.lLoop rest n
    (pe, Prim.lineTo n.1 n.2 :: out)
  | _, p => (p, [])

/-- Relative lineto `l` (source line 307): `check`, then `checkcurrent`
(which tests only `currentX === undefined`), then the accumulation loop. -/
def Canto.l (st : CantoState) (args : List JNum) : Res :=
  if Canto.check args 0 2 2 then
    if st.currentX = JNum.undef then throwR st .noCurrentPoint
    else
      let (pe, out) := Canto.lLoop args (st.currentX, st.currentY)
      okR (Canto.setcurrent st pe.1 pe.2) out
  else throwR st .argumentCount

/-- Absolute moveto `M` (source line 318): no argument-count check; extra
arguments are delegated to `L`. -/
def Canto.M (st : CantoState) (args : List JNum) : Res :=
  (Canto.M2 st (Canto.getArg args 0) (Canto.getArg args 1)).andThen fun s1 =>
    if 2 < args.length then Canto.L s1 (args.drop 2) else okR s1 []

/-- Relative moveto `m` (source line 327): if `_pathIsEmpty` is truthy the
current point is first set to the origin (the SVG first-element special
case); then `checkcurrent`; extra arguments are delegated to `l`. -/
def Canto.m (st : CantoState) (args : List JNum) : Res :=
  let st0 :=
    if st.pathIsEmpty = some true then
      { st with currentX := JNum.num 0, currentY := JNum.num 0 }
    else st
  if st0.currentX = JNum.undef then throwR st0 .noCurrentPoint
  else
    let x := Canto.getArg args 0 + st0.currentX
    let y := Canto.getArg args 1 + st0.currentY
    (Canto.M2 st0 x y).andThen fun s1 =>
      if 2 < args.length then Canto.l s1 (args.drop 2) else okR s1 []

/-- Closepath `z` (source line 348): emit `closePath`, then `setcurrent`
back to the subpath start (whatever value it holds). -/
def Canto.z (st : CantoState) : Res :=
  okR (Canto.setcurrent st st.startSubpathX st.startSubpathY) [Prim.closePath]

/-- The loop of `H` (source line 354): each scalar becomes `L(x, currentY)`
with the current point re-read after every step. -/
def Canto.HLoop : CantoState → List JNum → Res
  | st, [] => okR st []
  | st, x :: rest => (Canto.L st [x, st.currentY]).andThen fun s1 => Canto.HLoop s1 rest

/-- Absolute horizontal lineto `H` (source line 354): `checkcurrent` first,
then the loop (zero scalars means an empty loop). -/
def Canto.H (st : CantoState) (args : List JNum) : Res :=
  if st.currentX = JNum.undef then throwR st .noCurrentPoint
  else Canto.HLoop st args

/-- The loop of `h` (source line 360): each scalar becomes `l(d, 0)`. -/
def Canto.hLoop : CantoState → List JNum → Res
  | st, [] => okR st []
  | st, d :: rest => (Canto.l st [d, JNum.num 0]).andThen fun s1 => Canto.hLoop s1 rest

/-- Relative horizontal lineto `h` (source line 360): no check of its own;
with zero arguments it does nothing at all. -/
def Canto.h (st : CantoState) (args : List JNum) : Res :=
  Canto.hLoop st args

/-- The loop of `V` (source line 365): each scalar becomes `L(currentX, y)`. -/
def Canto.VLoop : CantoState → List JNum → Res
  | st, [] => okR st []
  | st, y :: rest => (Canto.L st [st.currentX, y]).andThen fun s1 => Canto.VLoop s1 rest

/-- Absolute vertical lineto `V` (source line 365). -/
def Canto.V (st : CantoState) (args : List JNum) : Res :=
  if st.currentX = JNum.undef then throwR st .noCurrentPoint
  else Canto.VLoop st args

/-- The loop of `v` (source line 371): each scalar becomes `l(0, d)`. -/
def Canto.vLoop : CantoState → List JNum → Res
  | st, [] => okR st []
  | st, d :: rest => (Canto.l st [JNum.num 0, d]).andThen fun s1 => Canto.vLoop s1 rest

/-- Relative vertical lineto `v` (source line 371). -/
def Canto.v (st : CantoState) (args : List JNum) : Res :=
  Canto.vLoop st args

/-- The poly-curve loop of the absolute cubic `C`: per 6-group emit the
bezier and carry that group's endpoint and second control point; the
carried values only matter when no group remains (they are the initial
values of the source's `x, y, cx2, cy2`, dead when a group exists because
`check` guarantees at least one). -/
def Canto.CLoop : List JNum → JNum × JNum → JNum × JNum →
    (JNum × JNum) × (JNum × JNum) × List Prim
  | a :: b :: c2x :: c2y :: x :: y :: rest, _, _ =>
    let (pe, pc, out) := Canto.CLoop rest (x, y) (c2x, c2y)
    (pe, pc, Prim.bezier a b c2x c2y x y :: out)
  | _, pe, pc => (pe, pc, [])

/-- Absolute cubic `C` (source line 376).  The `ensure` call reproduces the
source exactly: line 378 reads `ensure(this,cx1,cx2)`, passing the second
control point's x-coordinate (`arguments[2]`) in the y slot. -/
def Canto.C (st : CantoState) (args : List JNum) : Res :=
  if Canto.check args 0 6 6 then
    (Canto.ensure st (Canto.getArg args 0) (Canto.getArg args 2)).andThen fun s1 =>
      let (pe, pc, out) := Canto.CLoop args (Canto.getArg args 4, Canto.getArg args 5)
        (Canto.getArg args 2, Canto.getArg args 3)
      okR { Canto.setcurrent s1 pe.1 pe.2 with lastCCP := some pc } out
  else throwR st .argumentCount

/-- The poly-curve loop of the relative cubic `c`: all six offsets of a
group are relative to the group's starting point `x0, y0`. -/
def Canto.cLoop : List JNum → JNum × JNum → JNum × JNum →
    (JNum × JNum) × (JNum × JNum) × List Prim
  | a :: b :: c2x :: c2y :: dx :: dy :: rest, (x0, y0), _ =>
    let c2 := (x0 + c2x, y0 + c2y)
    let p := (x0 + dx, y0 + dy)
    let (pe, pc, out) := Canto.cLoop rest p c2
    (pe, pc, Prim.bezier (x0 + a) (y0 + b) c2.1 c2.2 p.1 p.2 :: out)
  | _, pe, pc => (pe, pc, [])

/-- Relative cubic `c` (source line 388). -/
def Canto.c (st : CantoState) (args : List JNum) : Res :=
  if Canto.check args 0 6 6 then
    if st.currentX = JNum.undef then throwR st .noCurrentPoint
    else
      let (pe, pc, out) := Canto.cLoop args (st.currentX, st.currentY)
        (Canto.getArg args 2, Canto.getArg args 3)
      okR { Canto.setcurrent st pe.1 pe.2 with lastCCP := some pc } out
  else throwR st .argumentCount

/-- The loop of the absolute quadratic `Q`: per 4-group emit the curve and
carry the endpoint and control point. -/
def Canto.QLoop : List JNum → JNum × JNum → JNum × JNum →
    (JNum × JNum) × (JNum × JNum) × List Prim
  | cx :: cy :: x :: y :: rest, _, _ =>
    let (pe, pc, out) := Canto.QLoop rest (x, y) (cx, cy)
    (pe, pc, Prim.quad cx cy x y :: out)
  | _, pe, pc => (pe, pc, [])

/-- Absolute quadratic `Q` (source line 403). -/
def Canto.Q (st : CantoState) (args : List JNum) : Res :=
  if Canto.check args 0 4 4 then
    (Canto.ensure st (Canto.getArg args 0) (Canto.getArg args 1)).andThen fun s1 =>
      let (pe, pc, out) := Canto.QLoop args (Canto.getArg args 2, Canto.getArg args 3)
        (Canto.getArg args 0, Canto.getArg args 1)
      okR { Canto.setcurrent s1 pe.1 pe.2 with lastQCP := some pc } out
  else throwR st .argumentCount

/-- The loop of the relative quadratic `q`: offsets relative to the group's
starting point; the recorded control point is the absolute one. -/
def Canto.qLoop : List JNum → JNum × JNum → JNum × JNum →
    (JNum × JNum) × (JNum × JNum) × List Prim
  | a :: b :: dx :: dy :: rest, (x0, y0), _ =>
    let ctrl := (x0 + a, y0 + b)
    let p := (x0 + dx, y0 + dy)
    let (pe, pc, out) := Canto.qLoop rest p ctrl
    (pe, pc, Prim.quad ctrl.1 ctrl.2 p.1 p.2 :: out)
  | _, pe, pc => (pe, pc, [])

/-- Relative quadratic `q` (source line 414). -/
def Canto.q (st : CantoState) (args : List JNum) : Res :=
  if Canto.check args 0 4 4 then
    if st.currentX = JNum.undef then throwR st .noCurrentPoint
    else
      let (pe, pc, out) := Canto.qLoop args (st.currentX, st.currentY)
        (Canto.getArg args 0, Canto.getArg args 1)
      okR { Canto.setcurrent st pe.1 pe.2 with lastQCP := some pc } out
  else throwR st .argumentCount

/-- The loop of the smooth cubic `S`: the first control point of each group
is the reflection `x0 + (x0 - cx0)` of the carried control point through
the carried current point; the group's explicit second control point and
endpoint are carried on. -/
def Canto.SLoop : List JNum → JNum × JNum → JNum × JNum →
    (JNum × JNum) × (JNum × JNum) × List Prim
  | c2x :: c2y :: x :: y :: rest, (x0, y0), (cx0, cy0) =>
    let r := (x0 + (x0 - cx0), y0 + (y0 - cy0))
    let (pe, pc, out) := Canto.SLoop rest (x, y) (c2x, c2y)
    (pe, pc, Prim.bezier r.1 r.2 c2x c2y x y :: out)
  | _, pe, pc => (pe, pc, [])

/-- Smooth absolute cubic `S` (source line 427): `check` first, then the
`_lastCCP` truthiness test, then `checkcurrent`. -/
def Canto.S (st : CantoState) (args : List JNum) : Res :=
  if Canto.check args 0 4 4 then
    match st.lastCCP with
    | none => throwR st .noSmoothContext
    | some (cx0, cy0) =>
      if st.currentX = JNum.undef then throwR st .noCurrentPoint
      else
        let (pe, pc, out) := Canto.SLoop args (st.currentX, st.currentY) (cx0, cy0)
        okR { Canto.setcurrent st pe.1 pe.2 with lastCCP := some pc } out
  else throwR st .argumentCount

/-- The loop of the smooth relative cubic `s`: like `Canto.SLoop` but the
explicit control point and endpoint are offsets from the group start. -/
def Canto.sLoop : List JNum → JNum × JNum → JNum × JNum →
    (JNum × JNum) × (JNum × JNum) × List Prim
  | a :: b :: dx :: dy :: rest, (x0, y0), (cx0, cy0) =>
    let r := (x0 + (x0 - cx0), y0 + (y0 - cy0))
    let c2 := (x0 + a, y0 + b)
    let p := (x0 + dx, y0 + dy)
    let (pe, pc, out) := Canto.sLoop rest p c2
    (pe, pc, Prim.bezier r.1 r.2 c2.1 c2.2 p.1 p.2 :: out)
  | _, pe, pc => (pe, pc, [])

/-- Smooth relative cubic `s` (source line 445). -/
def Canto.s (st : CantoState) (args : List JNum) : Res :=
  if Canto.check args 0 4 4 then
    match st.lastCCP with
    | none => throwR st .noSmoothContext
    | some (cx0, cy0) =>
      if st.currentX = JNum.undef then throwR st .noCurrentPoint
      else
        let (pe, pc, out) := Canto.sLoop args (st.currentX, st.currentY) (cx0, cy0)
        okR { Canto.setcurrent st pe.1 pe.2 with lastCCP := some pc } out
  else throwR st .argumentCount

/-- The loop of the smooth absolute quadratic `T`: the control point is the
reflection of the carried one through the carried current point, and that
reflected point is itself carried on (source line 474). -/
def Canto.TLoop : List JNum → JNum × JNum → JNum × JNum →
    (JNum × JNum) × (JNum × JNum) × List Prim
  | x :: y :: rest, (x0, y0), (cx0, cy0) =>
    let ctrl := (x0 + (x0 - cx0), y0 + (y0 - cy0))
    let (pe, pc, out) := Canto.TLoop rest (x, y) ctrl
    (pe, pc, Prim.quad ctrl.1 ctrl.2 x y :: out)
  | _, pe, pc => (pe, pc, [])

/-- Smooth absolute quadratic `T` (source line 463). -/
def Canto.T (st : CantoState) (args : List JNum) : Res :=
  if Canto.check args 0 2 2 then
    match st.lastQCP with
    | none => throwR st .noSmoothContext
    | some (cx0, cy0) =>
      if st.currentX = JNum.undef then throwR st .noCurrentPoint
      else
        let (pe, pc, out) := Canto.TLoop args (st.currentX, st.currentY) (cx0, cy0)
        okR { Canto.setcurrent st pe.1 pe.2 with lastQCP := some pc } out
  else throwR st .argumentCount

/-- The loop of the smooth relative quadratic `t` (source line 480). -/
def Canto.tLoop : List JNum → JNum × JNum → JNum × JNum →
    (JNum × JNum) × (JNum × JNum) × List Prim
  | dx :: dy :: rest, (x0, y0), (cx0, cy0) =>
    let ctrl := (x0 + (x0 - cx0), y0 + (y0 - cy0))
    let p := (x0 + dx, y0 + dy)
    let (pe, pc, out) := Canto.tLoop rest p ctrl
    (pe, pc, Prim.quad ctrl.1 ctrl.2 p.1 p.2 :: out)
  | _, pe, pc => (pe, pc, [])

/-- Smooth relative quadratic `t` (source line 480). -/
def Canto.t (st : CantoState) (args : List JNum) : Res :=
  if Canto.check args 0 2 2 then
    match st.lastQCP with
    | none => throwR st .noSmoothContext
    | some (cx0, cy0) =>
      if st.currentX = JNum.undef then throwR st .noCurrentPoint
      else
        let (pe, pc, out) := Canto.tLoop args (st.currentX, st.currentY) (cx0, cy0)
        okR { Canto.setcurrent st pe.1 pe.2 with lastQCP := some pc } out
  else throwR st .argumentCount

/-- Everything the non-degenerate tail of the `A` command (source lines
511..583) reads: the current point, the raw radii and rotation arguments,
the two flags already coerced to booleans, and the absolute endpoint. -/
structure ArcArgs where
  startX : JNum
  startY : JNum
  rx : JNum
  ry : JNum
  rotation : JNum
  big : Bool
  clockwise : Bool
  x : JNum
  y : JNum
deriving DecidableEq, Repr

/-- The abstract non-degenerate tail of `A`: the endpoint-to-centre
conversion plus the `this.ellipse(...)` call.  It cannot throw (the source
tail contains no checks), so it returns a plain state and emission list. -/
def ArcTail : Type := ArcArgs → CantoState → CantoState × List Prim

/-- An arbitrary concrete tail, used to instantiate theorems that hold for
every tail. -/
def Canto.trivialTail : ArcTail := fun _ st => (st, [])

/-- Elliptical arc `A` (source line 500): if either radius argument is the
number `0` the command is exactly `L` to the endpoint; otherwise the flags
are coerced with `Boolean(...)`, `checkcurrent` runs, and the tail takes
over. -/
def Canto.A (tail : ArcTail) (st : CantoState) (args : List JNum) : Res :=
  if Canto.getArg args 0 = JNum.num 0 ∨ Canto.getArg args 1 = JNum.num 0 then
    Canto.L st [Canto.getArg args 5, Canto.getArg args 6]
  else
    let big := (Canto.getArg args 3).truthy
    let cw := (Canto.getArg args 4).truthy
    if st.currentX = JNum.undef then throwR st .noCurrentPoint
    else
      let (s2, out) := tail
        ⟨st.currentX, st.currentY, Canto.getArg args 0, Canto.getArg args 1,
         Canto.getArg args 2, big, cw, Canto.getArg args 5, Canto.getArg args 6⟩ st
      okR s2 out

/-- Relative elliptical arc `a` (source line 586): `checkcurrent`, then `A`
with the endpoint offset by the current point and all other arguments
unchanged. -/
def Canto.a (tail : ArcTail) (st : CantoState) (args : List JNum) : Res :=
  if st.currentX = JNum.undef then throwR st .noCurrentPoint
  else
    Canto.A tail st
      [Canto.getArg args 0, Canto.getArg args 1, Canto.getArg args 2,
       Canto.getArg args 3, Canto.getArg args 4,
       Canto.getArg args 5 + st.currentX, Canto.getArg args 6 + st.currentY]

/-- `beginPath` (source line 596): clear the current point, subpath start
and control points, and mark the path empty. -/
def Canto.beginPath (st : CantoState) : Res :=
  okR { Canto.setcurrent st .undef .undef with
        startSubpathX := .undef, startSubpathY := .undef, pathIsEmpty := some true }
      [Prim.beginPath]

/-! The string grammar of `svgpath` (source lines 263..288).  The scanner
below is the character-level meaning of the two global JavaScript regular
expressions under leftmost scanning with greedy, first-alternative
matching; since nothing follows the trailing `*` groups, no backtracking
across iterations can occur, so greedy single-pass consumption is exact. -/

/-- The twenty command letters of the `svgpathelt` character class. -/
def Canto.isPathLetter (ch : Char) : Bool :=
  ch == 'M' || ch == 'm' || ch == 'L' || ch == 'l' || ch == 'Z' || ch == 'z' ||
  ch == 'H' || ch == 'h' || ch == 'V' || ch == 'v' || ch == 'C' || ch == 'c' ||
  ch == 'Q' || ch == 'q' || ch == 'S' || ch == 's' || ch == 'T' || ch == 't' ||
  ch == 'A' || ch == 'a'

/-- Whitespace as matched by `\s` on the ASCII inputs the grammar handles. -/
def Canto.isWS (ch : Char) : Bool :=
  ch == ' ' || ch == '\t' || ch == '\n' || ch == '\r' || ch == '\x0b' || ch == '\x0c'

/-- Sign characters. -/
def Canto.isSign (ch : Char) : Bool := ch == '+' || ch == '-'

/-- Split off leading whitespace (`\s*`). -/
def Canto.takeWS : List Char → List Char × List Char
  | ch :: rest =>
    if Canto.isWS ch then
      let (a, b) := Canto.takeWS rest
      (ch :: a, b)
    else ([], ch :: rest)
  | [] => ([], [])

/-- Split off leading digits (`\d*`). -/
def Canto.digits : List Char → List Char × List Char
  | ch :: rest =>
    if ch.isDigit then
      let (a, b) := Canto.digits rest
      (ch :: a, b)
    else ([], ch :: rest)
  | [] => ([], [])

/-- Optional exponent `([Ee][+-]?\d+)?`: consume it only when complete. -/
def Canto.expPart (cs : List Char) : List Char × List Char :=
  match cs with
  | e :: rest =>
    if e == 'E' || e == 'e' then
      let (sgn, r2) :=
        match rest with
        | sc :: r2 => if Canto.isSign sc then ([sc], r2) else (([] : List Char), rest)
        | [] => ([], rest)
      let (ds, r3) := Canto.digits r2
      if ds.isEmpty then ([], cs) else (e :: (sgn ++ ds), r3)
    else ([], cs)
  | [] => ([], cs)

/-- One number as matched inside `svgpathelt`, whose alternation is
`(\d+|\d+\.\d*|\.\d+)`: with a leading digit the first alternative wins and
consumes digits only (never a following dot); with a leading dot the third
alternative requires at least one digit. -/
def Canto.eltNumber (cs : List Char) : Option (List Char × List Char) :=
  let (sgn, r1) :=
    match cs with
    | sc :: r => if Canto.isSign sc then ([sc], r) else (([] : List Char), cs)
    | [] => ([], cs)
  match r1 with
  | '.' :: r2 =>
    match Canto.digits r2 with
    | ([], _) => none
    | (ds, r3) =>
      let (ex, r4) := Canto.expPart r3
      some (sgn ++ '.' :: (ds ++ ex), r4)
  | _ =>
    match Canto.digits r1 with
    | ([], _) => none
    | (ds, r3) =>
      let (ex, r4) := Canto.expPart r3
      some (sgn ++ ds ++ ex, r4)

/-- One separator `(,\s*|\s+,?\s*)`: comma then whitespace, or whitespace
then optional comma then whitespace. -/
def Canto.sep (cs : List Char) : Option (List Char × List Char) :=
  match cs with
  | ',' :: r =>
    let (ws, r2) := Canto.takeWS r
    some (',' :: ws, r2)
  | ch :: r =>
    if Canto.isWS ch then
      let (ws1, r1) := Canto.takeWS r
      match r1 with
      | ',' :: r2 =>
        let (ws2, r3) := Canto.takeWS r2
        some (ch :: (ws1 ++ ',' :: ws2), r3)
      | _ => some (ch :: ws1, r1)
    else none
  | [] => none

/-- The body loop `((number)(sep)?)*` of one path element; fuelled by the
input length (every iteration consumes at least one character). -/
def Canto.numSeps : ℕ → List Char → List Char × List Char
  | 0, cs => ([], cs)
  | fuel + 1, cs =>
    match Canto.eltNumber cs with
    | none => ([], cs)
    | some (n, r1) =>
      match Canto.sep r1 with
      | some (sp, r2) =>
        let (more, r3) := Canto.numSeps fuel r2
        (n ++ sp ++ more, r3)
      | none =>
        let (more, r3) := Canto.numSeps fuel r1
        (n ++ more, r3)

/-- The numeric value of a digit string. -/
def Canto.digitsVal (ds : List Char) : ℕ :=
  ds.foldl (fun acc ch => 10 * acc + (ch.toNat - 48)) 0

/-- The signed value of a consumed exponent part (empty means exponent 0). -/
def Canto.expVal : List Char → ℤ
  | _ :: '-' :: ds => -(Canto.digitsVal ds : ℤ)
  | _ :: '+' :: ds => (Canto.digitsVal ds : ℤ)
  | _ :: ds => (Canto.digitsVal ds : ℤ)
  | [] => 0

/-- One number as matched by the global `svgnumber` regular expression,
whose alternation is `(\.\d+|\d+\.\d*|\d+)`: here a dot may follow the
integer digits.  Returns the exact rational value `Number` gives the
matched substring together with the rest of the input. -/
def Canto.svgNumMatch (cs : List Char) : Option (ℚ × List Char) :=
  let (neg, r1) :=
    match cs with
    | sc :: r => if Canto.isSign sc then (sc == '-', r) else (false, cs)
    | [] => (false, cs)
  let core : Option (ℚ × List Char) :=
    match r1 with
    | '.' :: r2 =>
      match Canto.digits r2 with
      | ([], _) => none
      | (ds, r3) => some ((Canto.digitsVal ds : ℚ) / (10 : ℚ) ^ ds.length, r3)
    | _ =>
      match Canto.digits r1 with
      | ([], _) => none
      | (ds, r3) =>
        match r3 with
        | '.' :: r4 =>
          let (fs, r5) := Canto.digits r4
          some ((Canto.digitsVal ds : ℚ) + (Canto.digitsVal fs : ℚ) / (10 : ℚ) ^ fs.length, r5)
        | _ => some ((Canto.digitsVal ds : ℚ), r3)
  match core with
  | none => none
  | some (v, r3) =>
    let (ex, r4) := Canto.expPart r3
    let e : ℤ := Canto.expVal ex
    some ((if neg then -v else v) * (10 : ℚ) ^ e, r4)

/-- The global scan of `svgnumber` over one element's characters: at each
position try a match; on failure advance one character. -/
def Canto.svgNumbers : ℕ → List Char → List ℚ
  | 0, _ => []
  | _, [] => []
  | fuel + 1, cs =>
    match Canto.svgNumMatch cs with
    | some (v, r2) => v :: Canto.svgNumbers fuel r2
    | none =>
      match cs with
      | _ :: rest => Canto.svgNumbers fuel rest
      | [] => []

/-- The global scan of `svgpathelt`: skip characters until a command
letter, then consume `\s*((number)(sep)?)*` as the element body and pair
the letter with the numbers `svgnumber` extracts from that body (the
letter itself can never be part of a number, so scanning the body alone is
equivalent to scanning the whole element string). -/
def Canto.tokenizeF : ℕ → List Char → List (Char × List ℚ)
  | 0, _ => []
  | _, [] => []
  | fuel + 1, ch :: rest =>
    if Canto.isPathLetter ch then
      let r1 := (Canto.takeWS rest).2
      let body := Canto.numSeps r1.length r1
      (ch, Canto.svgNumbers body.1.length body.1) :: Canto.tokenizeF fuel body.2
    else Canto.tokenizeF fuel rest

/-- `text.match(svgpathelt)` as a list of (command letter, parsed numbers)
pairs; the empty list is JavaScript's `null` result. -/
def Canto.tokenize (text : List Char) : List (Char × List ℚ) :=
  Canto.tokenizeF text.length text

/-- `this[cmd].apply(this, numbers)` (source line 285): dispatch on the
command letter.  The default branch is unreachable from `Canto.tokenize`,
whose elements always start with a recognised letter. -/
def Canto.dispatch (tail : ArcTail) (st : CantoState) (ch : Char) (nums : List ℚ) : Res :=
  let args := nums.map JNum.num
  match ch with
  | 'M' => Canto.M st args
  | 'm' => Canto.m st args
  | 'L' => Canto.L st args
  | 'l' => Canto.l st args
  | 'Z' => Canto.z st
  | 'z' => Canto.z st
  | 'H' => Canto.H st args
  | 'h' => Canto.h st args
  | 'V' => Canto.V st args
  | 'v' => Canto.v st args
  | 'C' => Canto.C st args
  | 'c' => Canto.c st args
  | 'Q' => Canto.Q st args
  | 'q' => Canto.q st args
  | 'S' => Canto.S st args
  | 's' => Canto.s st args
  | 'T' => Canto.T st args
  | 't' => Canto.t st args
  | 'A' => Canto.A tail st args
  | 'a' => Canto.a tail st args
  | _ => throwR st .malformedPath

/-- The dispatch loop of `svgpath` (source line 275): run each element in
order; a thrown error propagates, keeping what was already emitted. -/
def Canto.runElts (tail : ArcTail) : CantoState → List (Char × List ℚ) → Res
  | st, [] => okR st []
  | st, (ch, ns) :: rest =>
    (Canto.dispatch tail st ch ns).andThen fun s1 => Canto.runElts tail s1 rest

/-- `svgpath` (source line 269): tokenize; throw "Bad path" when no element
matched; otherwise dispatch every element. -/
def Canto.svgpath (tail : ArcTail) (st : CantoState) (text : List Char) : Res :=
  let elts := Canto.tokenize text
  if elts.isEmpty then throwR st .malformedPath
  else Canto.runElts tail st elts

/-! The radii-correction and centre-offset computation of the `A` command
(source lines 536..559), embedded over the reals because it takes square
roots.  Its inputs are the already-rotated local-frame coordinates
`x1$, y1$` of the half-chord (step 1 of F.6.5) and the raw radii. -/

/-- `lambda` of F.6.6.2 (source line 538), computed after `rx = abs(rx)`
and `ry = abs(ry)`. -/
noncomputable def Canto.arcLambda (rx ry x1p y1p : ℝ) : ℝ :=
  x1p * x1p / (|rx| * |rx|) + y1p * y1p / (|ry| * |ry|)

/-- Source lines 536..559: take absolute radii; if `lambda > 1` scale both
radii by `sqrt lambda` and use a zero centre offset, otherwise compute the
offset from the standard quadratic with the root negated exactly when
`big === clockwise`.  Returns `(rx, ry, cx$, cy$)`. -/
noncomputable def Canto.arcRadiiCenter (rx ry x1p y1p : ℝ) (big clockwise : Bool) :
    ℝ × ℝ × ℝ × ℝ :=
  let rxa := |rx|
  let rya := |ry|
  let lam := Canto.arcLambda rx ry x1p y1p
  if 1 < lam then
    (rxa * Real.sqrt lam, rya * Real.sqrt lam, 0, 0)
  else
    let rxrx := rxa * rxa
    let ryry := rya * rya
    let t0 := Real.sqrt (rxrx * ryry / (rxrx * (y1p * y1p) + ryry * (x1p * x1p)) - 1)
    let t := if big = clockwise then -t0 else t0
    (rxa, rya, t * rxa * y1p / rya, -t * rya * x1p / rxa)

/-- The argument list `A(0, 2, 0, 0, 1, 7, 8)` used by the C5 witness. -/
def Canto.arcZeroArgs : List JNum :=
  [JNum.num 0, JNum.num 2, JNum.num 0, JNum.num 0, JNum.num 1, JNum.num 7, JNum.num 8]

/-- The state of the spec's example for C3: current point `(0,0)` with an
open path, then `cubic(10,10,20,10,20,20)`. -/
def Canto.exampleAfterCubic : CantoState :=
  (Canto.C
    { currentX := JNum.num 0, currentY := JNum.num 0
      startSubpathX := JNum.num 0, startSubpathY := JNum.num 0
      lastCCP := none, lastQCP := none, pathIsEmpty := some false }
    (([10, 10, 20, 10, 20, 20] : List ℚ).map JNum.num)).state

/-- A concrete state with current point `(3, 4)` used by the C1 witness. -/
def Canto.exampleCurrent : CantoState :=
  { currentX := JNum.num 3, currentY := JNum.num 4
    startSubpathX := JNum.num 3, startSubpathY := JNum.num 4
    lastCCP := none, lastQCP := none, pathIsEmpty := some false }

/-! Argument builders used to state the relative/absolute correspondence:
a list of absolute coordinate groups, and the same groups rewritten as the
offsets a relative command must receive — each group's coordinates minus
the current point as it stands when that group is processed (the invoked
current point for the first group, the previous group's endpoint after). -/

/-- Flatten coordinate pairs into a JavaScript argument list. -/
def Canto.flat2 : List (ℚ × ℚ) → List JNum
  | [] => []
  | p :: ps => JNum.num p.1 :: JNum.num p.2 :: Canto.flat2 ps

/-- Flatten 4-groups into a JavaScript argument list. -/
def Canto.flat4 : List (ℚ × ℚ × ℚ × ℚ) → List JNum
  | [] => []
  | g :: gs => JNum.num g.1 :: JNum.num g.2.1 :: JNum.num g.2.2.1 ::
      JNum.num g.2.2.2 :: Canto.flat4 gs

/-- Flatten 6-groups into a JavaScript argument list. -/
def Canto.flat6 : List (ℚ × ℚ × ℚ × ℚ × ℚ × ℚ) → List JNum
  | [] => []
  | g :: gs => JNum.num g.1 :: JNum.num g.2.1 :: JNum.num g.2.2.1 ::
      JNum.num g.2.2.2.1 :: JNum.num g.2.2.2.2.1 :: JNum.num g.2.2.2.2.2 :: Canto.flat6 gs

/-- Offsets of a point list against the running current point. -/
def Canto.relDeltas : ℚ × ℚ → List (ℚ × ℚ) → List (ℚ × ℚ)
  | _, [] => []
  | c, p :: r => (p.1 - c.1, p.2 - c.2) :: Canto.relDeltas p r

/-- Offsets of a scalar list against the running value. -/
def Canto.relDeltas1 : ℚ → List ℚ → List ℚ
  | _, [] => []
  | c, x :: r => (x - c) :: Canto.relDeltas1 x r

/-- Offsets of 4-groups (control point and endpoint) against the running
current point; the group's endpoint becomes the next current point. -/
def Canto.rel4 : ℚ × ℚ → List (ℚ × ℚ × ℚ × ℚ) → List (ℚ × ℚ × ℚ × ℚ)
  | _, [] => []
  | (cx, cy), (a, b, x, y) :: r =>
    (a - cx, b - cy, x - cx, y - cy) :: Canto.rel4 (x, y) r

/-- Offsets of 6-groups against the running current point. -/
def Canto.rel6 : ℚ × ℚ → List (ℚ × ℚ × ℚ × ℚ × ℚ × ℚ) →
    List (ℚ × ℚ × ℚ × ℚ × ℚ × ℚ)
  | _, [] => []
  | (cx, cy), (a, b, c2x, c2y, x, y) :: r =>
    (a - cx, b - cy, c2x - cx, c2y - cy, x - cx, y - cy) :: Canto.rel6 (x, y) r

/-! Helper lemmas. -/

theorem JNum.num_add_num (a b : ℚ) : JNum.num a + JNum.num b = JNum.num (a + b) := rfl

theorem JNum.num_sub_num (a b : ℚ) : JNum.num a - JNum.num b = JNum.num (a - b) := rfl

/-- The argument-count test at the call shape `check(args, 0, k, k)` used by
every checking command, as an arithmetic condition. -/
theorem Canto.check_eq_true_iff (args : List JNum) (k : ℕ) (hk : k ≠ 0) :
    Canto.check args 0 k k = true ↔ (args.length % k = 0 ∧ k ≤ args.length) := by
  unfold Canto.check
  rw [if_neg (by simpa using hk)]
  simp only [Bool.and_eq_true, beq_iff_eq, decide_eq_true_eq]
  exact ⟨fun h => ⟨h.1.symm, h.2⟩, fun h => ⟨h.1.symm, h.2⟩⟩

theorem Canto.check_eq_false (args : List JNum) (k : ℕ) (hk : k ≠ 0)
    (h : ¬(args.length % k = 0 ∧ k ≤ args.length)) : Canto.check args 0 k k = false := by
  rw [← Bool.not_eq_true, Canto.check_eq_true_iff args k hk]
  exact h

/-- C2: the claim says a relative move as the very first command of a
session (immediately after construction or reset) succeeds as an absolute
move.  In the code it throws the no-current-point error instead, because
`resetCantoState` never initialises `_pathIsEmpty`, so `m`'s first-command
special case is skipped; the second conjunct shows the special case does
work once `beginPath` has set the flag, matching the claim's intent. -/
theorem Canto.first_relative_move_throws :
    Canto.m Canto.initState [JNum.num 5, JNum.num 5] =
      throwR Canto.initState .noCurrentPoint ∧
    Canto.m (Canto.beginPath Canto.initState).state [JNum.num 5, JNum.num 5] =
      Canto.M (Canto.beginPath Canto.initState).state [JNum.num 5, JNum.num 5] :=
  ⟨rfl, by
    norm_num [Canto.m, Canto.M, Canto.beginPath, Canto.M2, Canto.setcurrent, okR,
      Res.andThen, Canto.initState, Canto.getArg, JNum.num_add_num]
    exact fun h => nomatch h⟩

/-- C8: evaluating the absolute cubic on an empty path.  With the path
opened by `beginPath`, `C(10,20,30,40,50,60)` emits the opening move at
`(10, 30)` — the first control point's x paired with the second control
point's x, because source line 378 reads `ensure(this,cx1,cx2)` — not at
the first control point `(10, 20)` the claim requires.  Immediately after
construction (second conjunct) `_pathIsEmpty` is `undefined`, so no move
is emitted at all. -/
theorem Canto.cubic_opens_subpath_at_wrong_point :
    (Canto.C (Canto.beginPath Canto.initState).state
        (([10, 20, 30, 40, 50, 60] : List ℚ).map JNum.num)).out =
      [Prim.moveTo (JNum.num 10) (JNum.num 30),
       Prim.bezier (JNum.num 10) (JNum.num 20) (JNum.num 30) (JNum.num 40)
         (JNum.num 50) (JNum.num 60)] ∧
    (Canto.C Canto.initState (([10, 20, 30, 40, 50, 60] : List ℚ).map JNum.num)).out =
      [Prim.bezier (JNum.num 10) (JNum.num 20) (JNum.num 30) (JNum.num 40)
         (JNum.num 50) (JNum.num 60)] :=
  ⟨rfl, rfl⟩

/-- C10: relative `h`/`v` with zero arguments succeed and leave the whole
state unchanged (emitting nothing), in every state; absolute `H`/`V` with
zero arguments still throw the no-current-point error whenever the current
point is undefined. -/
theorem Canto.hv_zero_args (st : CantoState) :
    Canto.h st [] = okR st [] ∧ Canto.v st [] = okR st [] ∧
    (st.currentX = JNum.undef →
      Canto.H st [] = throwR st .noCurrentPoint ∧
      Canto.V st [] = throwR st .noCurrentPoint) := by
  refine ⟨rfl, rfl, fun h => ⟨?_, ?_⟩⟩ <;> simp [Canto.H, Canto.V, h]

/-- Witness for C10 at the construction state. -/
theorem Canto.hv_zero_args_witness :
    Canto.h Canto.initState [] = okR Canto.initState [] ∧
    Canto.H Canto.initState [] = throwR Canto.initState .noCurrentPoint :=
  ⟨(Canto.hv_zero_args Canto.initState).1,
   ((Canto.hv_zero_args Canto.initState).2.2 rfl).1⟩

/-- C5: whenever the `rx` or `ry` argument of the elliptical arc `A` is the
number `0`, the command is the absolute line command to the same endpoint:
same primitives, same state, for every state and every arc tail. -/
theorem Canto.arc_degenerate_is_line (tail : ArcTail) (st : CantoState)
    (args : List JNum)
    (h : Canto.getArg args 0 = JNum.num 0 ∨ Canto.getArg args 1 = JNum.num 0) :
    Canto.A tail st args = Canto.L st [Canto.getArg args 5, Canto.getArg args 6] := by
  unfold Canto.A
  rw [if_pos h]

/-- Witness for C5: a concrete degenerate arc call. -/
theorem Canto.arc_degenerate_is_line_witness :
    Canto.A Canto.trivialTail Canto.initState Canto.arcZeroArgs =
      Canto.L Canto.initState [Canto.getArg Canto.arcZeroArgs 5, Canto.getArg Canto.arcZeroArgs 6] :=
  Canto.arc_degenerate_is_line Canto.trivialTail Canto.initState Canto.arcZeroArgs (Or.inl rfl)

/-- C6: whenever the subpath start is a defined point `(sx, sy)`, close
path emits the close primitive and moves the current point back to the
subpath start, and a relative line issued immediately afterwards succeeds
— offsetting from `(sx, sy)` — rather than throwing the no-current-point
error. -/
theorem Canto.close_then_relative_line (st : CantoState) (sx sy : ℚ)
    (hx : st.startSubpathX = JNum.num sx) (hy : st.startSubpathY = JNum.num sy) :
    Canto.z st = okR (Canto.setcurrent st (JNum.num sx) (JNum.num sy)) [Prim.closePath] ∧
    (Canto.z st).state.currentX = JNum.num sx ∧
    (Canto.z st).state.currentY = JNum.num sy ∧
    ∀ dx dy : ℚ,
      Canto.l (Canto.z st).state [JNum.num dx, JNum.num dy] =
        okR (Canto.setcurrent (Canto.z st).state (JNum.num (sx + dx)) (JNum.num (sy + dy)))
            [Prim.lineTo (JNum.num (sx + dx)) (JNum.num (sy + dy))] := by
  have hz : Canto.z st = okR (Canto.setcurrent st (JNum.num sx) (JNum.num sy)) [Prim.closePath] := by
    unfold Canto.z
    rw [hx, hy]
  refine ⟨hz, ?_, ?_, fun dx dy => ?_⟩
  · rw [hz]; rfl
  · rw [hz]; rfl
  · rw [hz]
    show Canto.l (Canto.setcurrent st (JNum.num sx) (JNum.num sy)) _ = _
    unfold Canto.l
    rw [if_pos ((Canto.check_eq_true_iff _ 2 two_ne_zero).mpr (by simp))]
    rw [if_neg (by simp [Canto.setcurrent])]
    simp [Canto.lLoop, Canto.setcurrent, okR, JNum.num_add_num]

/-- Witness for C6: close and relative line from a concrete state. -/
theorem Canto.close_then_relative_line_witness :
    ((Canto.M Canto.initState [JNum.num 3, JNum.num 4]).state.startSubpathX = JNum.num 3) ∧
    Canto.z (Canto.M Canto.initState [JNum.num 3, JNum.num 4]).state =
      okR (Canto.setcurrent (Canto.M Canto.initState [JNum.num 3, JNum.num 4]).state
            (JNum.num 3) (JNum.num 4)) [Prim.closePath] :=
  ⟨rfl,
   (Canto.close_then_relative_line
      (Canto.M Canto.initState [JNum.num 3, JNum.num 4]).state 3 4 rfl rfl).1⟩

/-- C3: a single-group smooth cubic `S(c2x, c2y, ex, ey)` issued when the
last cubic control point is `(cx0, cy0)` and the current point is
`(x0, y0)` emits one cubic whose first control point is the reflection
`(2*x0 - cx0, 2*y0 - cy0)` of the stored control point through the current
point, and afterwards `lastCCP` is the explicit second control point
`(c2x, c2y)` of the group. -/
theorem Canto.smooth_cubic_reflects (st : CantoState) (cx0 cy0 x0 y0 c2x c2y ex ey : ℚ)
    (hc : st.lastCCP = some (JNum.num cx0, JNum.num cy0))
    (hx : st.currentX = JNum.num x0) (hy : st.currentY = JNum.num y0) :
    Canto.S st [JNum.num c2x, JNum.num c2y, JNum.num ex, JNum.num ey] =
      okR { Canto.setcurrent st (JNum.num ex) (JNum.num ey) with
            lastCCP := some (JNum.num c2x, JNum.num c2y) }
          [Prim.bezier (JNum.num (2 * x0 - cx0)) (JNum.num (2 * y0 - cy0))
            (JNum.num c2x) (JNum.num c2y) (JNum.num ex) (JNum.num ey)] := by
  have h1 : x0 + (x0 - cx0) = 2 * x0 - cx0 := by ring
  have h2 : y0 + (y0 - cy0) = 2 * y0 - cy0 := by ring
  unfold Canto.S
  rw [if_pos ((Canto.check_eq_true_iff _ 4 four_ne_zero).mpr (by simp))]
  rw [hc, hx, hy]
  simp [Canto.SLoop, JNum.num_add_num, JNum.num_sub_num, h1, h2]

/-- Witness for C3, running the spec's concrete example: after
`cubic(10,10,20,10,20,20)` from `(0,0)` the stored control point is
`(20,10)` and the current point `(20,20)`; the smooth cubic with explicit
control point and endpoint `(30,30)` emits a cubic whose first control
point is `(2*20-20, 2*20-10) = (20, 30)`. -/
theorem Canto.smooth_cubic_reflects_witness :
    Canto.exampleAfterCubic.lastCCP = some (JNum.num 20, JNum.num 10) ∧
    Canto.S Canto.exampleAfterCubic
        [JNum.num 30, JNum.num 30, JNum.num 30, JNum.num 30] =
      okR { Canto.setcurrent Canto.exampleAfterCubic (JNum.num 30) (JNum.num 30) with
            lastCCP := some (JNum.num 30, JNum.num 30) }
          [Prim.bezier (JNum.num (2 * 20 - 20)) (JNum.num (2 * 20 - 10))
            (JNum.num 30) (JNum.num 30) (JNum.num 30) (JNum.num 30)] :=
  ⟨rfl, Canto.smooth_cubic_reflects Canto.exampleAfterCubic 20 10 20 20 30 30 30 30 rfl rfl rfl⟩

/-- C7 (amended): the checking multi-pair commands — line, cubic,
quadratic, smooth-cubic and smooth-quadratic, absolute and relative —
throw the argument-count error for every argument count that is not a
positive multiple of their group size (2, 6, 4, 4 and 2 respectively),
emitting nothing.  Move has no check of its own: absolute move with an odd
count of at least 3 throws the argument-count error from its delegation to
the line command after emitting exactly the complete opening move, while
move with 0 or 1 arguments does not throw at all. -/
theorem Canto.argument_count_validation (st : CantoState) (args : List JNum) :
    (¬(args.length % 2 = 0 ∧ 2 ≤ args.length) →
      Canto.L st args = throwR st .argumentCount ∧
      Canto.l st args = throwR st .argumentCount ∧
      Canto.T st args = throwR st .argumentCount ∧
      Canto.t st args = throwR st .argumentCount) ∧
    (¬(args.length % 4 = 0 ∧ 4 ≤ args.length) →
      Canto.Q st args = throwR st .argumentCount ∧
      Canto.q st args = throwR st .argumentCount ∧
      Canto.S st args = throwR st .argumentCount ∧
      Canto.s st args = throwR st .argumentCount) ∧
    (¬(args.length % 6 = 0 ∧ 6 ≤ args.length) →
      Canto.C st args = throwR st .argumentCount ∧
      Canto.c st args = throwR st .argumentCount) ∧
    (args.length % 2 = 1 → 3 ≤ args.length →
      (Canto.M st args).err = some .argumentCount ∧
      (Canto.M st args).out = [Prim.moveTo (Canto.getArg args 0) (Canto.getArg args 1)]) ∧
    (args.length ≤ 1 → (Canto.M st args).err = none) := by
  refine ⟨fun h => ?_, fun h => ?_, fun h => ?_, fun h1 h2 => ?_, fun h => ?_⟩
  · have hc := Canto.check_eq_false args 2 two_ne_zero h
    exact ⟨by simp [Canto.L, hc], by simp [Canto.l, hc],
           by simp [Canto.T, hc], by simp [Canto.t, hc]⟩
  · have hc := Canto.check_eq_false args 4 four_ne_zero h
    exact ⟨by simp [Canto.Q, hc], by simp [Canto.q, hc],
           by simp [Canto.S, hc], by simp [Canto.s, hc]⟩
  · have hc := Canto.check_eq_false args 6 (by norm_num) h
    exact ⟨by simp [Canto.C, hc], by simp [Canto.c, hc]⟩
  · have hlt : 2 < args.length := by omega
    have hbad : ¬((args.drop 2).length % 2 = 0 ∧ 2 ≤ (args.drop 2).length) := by
      simp only [List.length_drop]
      omega
    have hl := Canto.check_eq_false (args.drop 2) 2 two_ne_zero hbad
    constructor <;>
      simp [Canto.M, Canto.M2, okR, Res.andThen, hlt, Canto.L, hl, throwR]
  · have hng : ¬ (2 < args.length) := by omega
    simp [Canto.M, Canto.M2, okR, Res.andThen, hng]

/-- Witness for C7 (amended): the cubic command with 5 numeric arguments
fails with the argument-count error and emits nothing. -/
theorem Canto.argument_count_validation_witness :
    Canto.C Canto.initState (([1, 2, 3, 4, 5] : List ℚ).map JNum.num) =
      throwR Canto.initState .argumentCount ∧
    (Canto.M Canto.initState [JNum.num 1]).err = none :=
  ⟨((Canto.argument_count_validation Canto.initState
      (([1, 2, 3, 4, 5] : List ℚ).map JNum.num)).2.2.1 (by simp)).1,
   (Canto.argument_count_validation Canto.initState [JNum.num 1]).2.2.2.2 (by simp)⟩

/-- Counterexample for C7 as stated: the move command invoked with a single
numeric argument — 1 is not a positive multiple of the group size 2 — does
not throw the argument-count error; it emits a move whose y-coordinate is
`undefined` and returns normally. -/
theorem Canto.move_single_argument_accepted :
    Canto.M Canto.initState [JNum.num 1] =
      okR { currentX := JNum.num 1, currentY := JNum.undef,
            startSubpathX := JNum.num 1, startSubpathY := JNum.undef,
            lastCCP := none, lastQCP := none, pathIsEmpty := some false }
          [Prim.moveTo (JNum.num 1) JNum.undef] := rfl

theorem Canto.add_cancel_q (a b : ℚ) : a + (b - a) = b := by ring

theorem Canto.flat2_nil : Canto.flat2 [] = [] := rfl

theorem Canto.flat2_cons (p : ℚ × ℚ) (ps : List (ℚ × ℚ)) :
    Canto.flat2 (p :: ps) = JNum.num p.1 :: JNum.num p.2 :: Canto.flat2 ps := rfl

theorem Canto.flat4_nil : Canto.flat4 [] = [] := rfl

theorem Canto.flat4_cons (g : ℚ × ℚ × ℚ × ℚ) (gs : List (ℚ × ℚ × ℚ × ℚ)) :
    Canto.flat4 (g :: gs) = JNum.num g.1 :: JNum.num g.2.1 :: JNum.num g.2.2.1 ::
      JNum.num g.2.2.2 :: Canto.flat4 gs := rfl

theorem Canto.flat6_nil : Canto.flat6 [] = [] := rfl

theorem Canto.flat6_cons (g : ℚ × ℚ × ℚ × ℚ × ℚ × ℚ) (gs : List (ℚ × ℚ × ℚ × ℚ × ℚ × ℚ)) :
    Canto.flat6 (g :: gs) = JNum.num g.1 :: JNum.num g.2.1 :: JNum.num g.2.2.1 ::
      JNum.num g.2.2.2.1 :: JNum.num g.2.2.2.2.1 :: JNum.num g.2.2.2.2.2 :: Canto.flat6 gs := rfl

theorem Canto.flat2_length (ps : List (ℚ × ℚ)) : (Canto.flat2 ps).length = 2 * ps.length := by
  induction ps with
  | nil => rfl
  | cons p ps ih => simp [Canto.flat2_cons, ih]; omega

theorem Canto.flat4_length (gs : List (ℚ × ℚ × ℚ × ℚ)) :
    (Canto.flat4 gs).length = 4 * gs.length := by
  induction gs with
  | nil => rfl
  | cons g gs ih => simp [Canto.flat4_cons, ih]; omega

theorem Canto.flat6_length (gs : List (ℚ × ℚ × ℚ × ℚ × ℚ × ℚ)) :
    (Canto.flat6 gs).length = 6 * gs.length := by
  induction gs with
  | nil => rfl
  | cons g gs ih => simp [Canto.flat6_cons, ih]; omega

theorem Canto.relDeltas_length (c : ℚ × ℚ) (ps : List (ℚ × ℚ)) :
    (Canto.relDeltas c ps).length = ps.length := by
  induction ps generalizing c with
  | nil => rfl
  | cons p ps ih => simp [Canto.relDeltas, ih]

theorem Canto.rel4_length (c : ℚ × ℚ) (gs : List (ℚ × ℚ × ℚ × ℚ)) :
    (Canto.rel4 c gs).length = gs.length := by
  induction gs generalizing c with
  | nil => rfl
  | cons g gs ih =>
    obtain ⟨cx, cy⟩ := c
    obtain ⟨a, b, x, y⟩ := g
    simp [Canto.rel4, ih]

theorem Canto.rel6_length (c : ℚ × ℚ) (gs : List (ℚ × ℚ × ℚ × ℚ × ℚ × ℚ)) :
    (Canto.rel6 c gs).length = gs.length := by
  induction gs generalizing c with
  | nil => rfl
  | cons g gs ih =>
    obtain ⟨cx, cy⟩ := c
    obtain ⟨a, b, c2x, c2y, x, y⟩ := g
    simp [Canto.rel6, ih]

theorem Canto.lLoop_eq_LLoop (ps : List (ℚ × ℚ)) : ∀ (cx cy : ℚ),
    Canto.lLoop (Canto.flat2 (Canto.relDeltas (cx, cy) ps)) (JNum.num cx, JNum.num cy) =
      Canto.LLoop (Canto.flat2 ps) (JNum.num cx, JNum.num cy) := by
  induction ps with
  | nil => intro cx cy; rfl
  | cons p ps ih =>
    intro cx cy
    obtain ⟨px, py⟩ := p
    simp only [Canto.relDeltas, Canto.flat2_cons, Canto.lLoop, Canto.LLoop,
      JNum.num_add_num, Canto.add_cancel_q, ih px py]

theorem Canto.LLoop_carried (x y : JNum) (rest : List JNum) (u u' : JNum × JNum) :
    Canto.LLoop (x :: y :: rest) u = Canto.LLoop (x :: y :: rest) u' := rfl

theorem Canto.l_eq_L (st : CantoState) (cx cy : ℚ)
    (hx : st.currentX = JNum.num cx) (hy : st.currentY = JNum.num cy)
    (he : st.pathIsEmpty ≠ some true) (ps : List (ℚ × ℚ)) :
    Canto.l st (Canto.flat2 (Canto.relDeltas (cx, cy) ps)) = Canto.L st (Canto.flat2 ps) := by
  cases ps with
  | nil =>
    have hc : Canto.check ([] : List JNum) 0 2 2 = false := by decide
    simp [Canto.relDeltas, Canto.flat2, Canto.l, Canto.L, hc]
  | cons p ps =>
    obtain ⟨px, py⟩ := p
    have hcr : Canto.check (Canto.flat2 (Canto.relDeltas (cx, cy) ((px, py) :: ps))) 0 2 2 = true := by
      refine (Canto.check_eq_true_iff _ 2 two_ne_zero).mpr ?_
      rw [Canto.flat2_length, Canto.relDeltas_length]
      simp only [List.length_cons]
      omega
    have hca : Canto.check (Canto.flat2 ((px, py) :: ps)) 0 2 2 = true := by
      refine (Canto.check_eq_true_iff _ 2 two_ne_zero).mpr ?_
      rw [Canto.flat2_length]
      simp only [List.length_cons]
      omega
    unfold Canto.l Canto.L
    rw [hcr, hca]
    simp only [if_true]
    rw [if_neg (by rw [hx]; exact fun h => nomatch h)]
    unfold Canto.ensure
    rw [if_neg he]
    simp only [okR, Res.andThen]
    rw [hx, hy, Canto.lLoop_eq_LLoop]
    have hfold : Canto.flat2 ((px, py) :: ps) =
        JNum.num px :: JNum.num py :: Canto.flat2 ps := rfl
    rw [hfold, Canto.LLoop_carried _ _ _ (JNum.num cx, JNum.num cy)
      (Canto.getArg (JNum.num px :: JNum.num py :: Canto.flat2 ps) 0,
       Canto.getArg (JNum.num px :: JNum.num py :: Canto.flat2 ps) 1)]
    simp only [List.nil_append]

theorem Canto.getArg_zero (a : JNum) (l : List JNum) : Canto.getArg (a :: l) 0 = a := rfl

theorem Canto.getArg_succ (a : JNum) (l : List JNum) (i : ℕ) :
    Canto.getArg (a :: l) (i + 1) = Canto.getArg l i := rfl

theorem Canto.sub_add_q (a b : ℚ) : a - b + b = a := by ring

theorem Canto.drop2_cons (a b : JNum) (l : List JNum) : (a :: b :: l).drop 2 = l := rfl

theorem Canto.m_run (st : CantoState) (cx cy px py : ℚ) (rest : List JNum)
    (hx : st.currentX = JNum.num cx) (hy : st.currentY = JNum.num cy)
    (he : st.pathIsEmpty ≠ some true) :
    Canto.m st (JNum.num (px - cx) :: JNum.num (py - cy) :: rest) =
      (Canto.M2 st (JNum.num px) (JNum.num py)).andThen fun s1 =>
        if 2 < (JNum.num (px - cx) :: JNum.num (py - cy) :: rest).length then Canto.l s1 rest
        else okR s1 [] := by
  have hnu : ¬ (st.currentX = JNum.undef) := by rw [hx]; exact fun h => nomatch h
  simp only [Canto.m, if_neg he, if_neg hnu, hx, hy, Canto.getArg_zero, Canto.getArg_succ,
    JNum.num_add_num, Canto.sub_add_q, Canto.drop2_cons]
  rw [if_neg (fun h : JNum.num cx = JNum.undef => nomatch h)]

theorem Canto.M_run (st : CantoState) (px py : ℚ) (rest : List JNum) :
    Canto.M st (JNum.num px :: JNum.num py :: rest) =
      (Canto.M2 st (JNum.num px) (JNum.num py)).andThen fun s1 =>
        if 2 < (JNum.num px :: JNum.num py :: rest).length then Canto.L s1 rest
        else okR s1 [] := by
  simp only [Canto.M, Canto.getArg_zero, Canto.getArg_succ, Canto.drop2_cons]

theorem Canto.m_eq_M (st : CantoState) (cx cy : ℚ)
    (hx : st.currentX = JNum.num cx) (hy : st.currentY = JNum.num cy)
    (he : st.pathIsEmpty ≠ some true) :
    ∀ ps : List (ℚ × ℚ), ps ≠ [] →
      Canto.m st (Canto.flat2 (Canto.relDeltas (cx, cy) ps)) = Canto.M st (Canto.flat2 ps) := by
  intro ps hne
  cases ps with
  | nil => exact absurd rfl hne
  | cons p ps =>
    obtain ⟨px, py⟩ := p
    simp only [Canto.relDeltas, Canto.flat2_cons]
    rw [Canto.m_run st cx cy px py _ hx hy he, Canto.M_run st px py _]
    simp only [Canto.M2, okR, Res.andThen, List.length_cons, Canto.flat2_length,
      Canto.relDeltas_length]
    by_cases hsplit : 2 < 2 * ps.length + 1 + 1
    · rw [if_pos hsplit, if_pos hsplit, Canto.l_eq_L _ px py rfl rfl (by simp [Canto.setcurrent]) ps]
    · rw [if_neg hsplit, if_neg hsplit]

theorem Canto.l_pair (st : CantoState) (cx cy dx dy : ℚ)
    (hx : st.currentX = JNum.num cx) (hy : st.currentY = JNum.num cy) :
    Canto.l st [JNum.num dx, JNum.num dy] =
      okR (Canto.setcurrent st (JNum.num (cx + dx)) (JNum.num (cy + dy)))
          [Prim.lineTo (JNum.num (cx + dx)) (JNum.num (cy + dy))] := by
  unfold Canto.l
  rw [if_pos ((Canto.check_eq_true_iff _ 2 two_ne_zero).mpr (by simp))]
  rw [if_neg (by rw [hx]; exact fun h => nomatch h)]
  simp [Canto.lLoop, hx, hy, JNum.num_add_num]

theorem Canto.L_pair (st : CantoState) (x y : ℚ) (he : st.pathIsEmpty ≠ some true) :
    Canto.L st [JNum.num x, JNum.num y] =
      okR (Canto.setcurrent st (JNum.num x) (JNum.num y))
          [Prim.lineTo (JNum.num x) (JNum.num y)] := by
  unfold Canto.L
  rw [if_pos ((Canto.check_eq_true_iff _ 2 two_ne_zero).mpr (by simp))]
  unfold Canto.ensure
  rw [if_neg he]
  simp [Canto.LLoop, okR, Res.andThen, Canto.getArg_zero]

theorem Canto.hLoop_eq_HLoop (xs : List ℚ) : ∀ (st : CantoState) (cx cy : ℚ),
    st.currentX = JNum.num cx → st.currentY = JNum.num cy → st.pathIsEmpty ≠ some true →
    Canto.hLoop st ((Canto.relDeltas1 cx xs).map JNum.num) = Canto.HLoop st (xs.map JNum.num) := by
  induction xs with
  | nil => intro st cx cy _ _ _; rfl
  | cons x xs ih =>
    intro st cx cy hx hy he
    simp only [Canto.relDeltas1, List.map_cons, Canto.hLoop, Canto.HLoop]
    rw [Canto.l_pair st cx cy (x - cx) 0 hx hy, hy, Canto.L_pair st x cy he]
    simp only [Canto.add_cancel_q, add_zero, okR, Res.andThen]
    rw [ih _ x cy rfl rfl (by simp [Canto.setcurrent])]

theorem Canto.h_eq_H (st : CantoState) (cx cy : ℚ)
    (hx : st.currentX = JNum.num cx) (hy : st.currentY = JNum.num cy)
    (he : st.pathIsEmpty ≠ some true) (xs : List ℚ) :
    Canto.h st ((Canto.relDeltas1 cx xs).map JNum.num) = Canto.H st (xs.map JNum.num) := by
  unfold Canto.h Canto.H
  rw [if_neg (by rw [hx]; exact fun h => nomatch h)]
  exact Canto.hLoop_eq_HLoop xs st cx cy hx hy he

theorem Canto.vLoop_eq_VLoop (ys : List ℚ) : ∀ (st : CantoState) (cx cy : ℚ),
    st.currentX = JNum.num cx → st.currentY = JNum.num cy → st.pathIsEmpty ≠ some true →
    Canto.vLoop st ((Canto.relDeltas1 cy ys).map JNum.num) = Canto.VLoop st (ys.map JNum.num) := by
  induction ys with
  | nil => intro st cx cy _ _ _; rfl
  | cons y ys ih =>
    intro st cx cy hx hy he
    simp only [Canto.relDeltas1, List.map_cons, Canto.vLoop, Canto.VLoop]
    rw [Canto.l_pair st cx cy 0 (y - cy) hx hy, hx, Canto.L_pair st cx y he]
    simp only [Canto.add_cancel_q, add_zero, okR, Res.andThen]
    rw [ih _ cx y rfl rfl (by simp [Canto.setcurrent])]

theorem Canto.v_eq_V (st : CantoState) (cx cy : ℚ)
    (hx : st.currentX = JNum.num cx) (hy : st.currentY = JNum.num cy)
    (he : st.pathIsEmpty ≠ some true) (ys : List ℚ) :
    Canto.v st ((Canto.relDeltas1 cy ys).map JNum.num) = Canto.V st (ys.map JNum.num) := by
  unfold Canto.v Canto.V
  rw [if_neg (by rw [hx]; exact fun h => nomatch h)]
  exact Canto.vLoop_eq_VLoop ys st cx cy hx hy he

theorem Canto.cLoop_eq_CLoop (gs : List (ℚ × ℚ × ℚ × ℚ × ℚ × ℚ)) :
    ∀ (cx cy : ℚ) (w : JNum × JNum),
    Canto.cLoop (Canto.flat6 (Canto.rel6 (cx, cy) gs)) (JNum.num cx, JNum.num cy) w =
      Canto.CLoop (Canto.flat6 gs) (JNum.num cx, JNum.num cy) w := by
  induction gs with
  | nil => intro cx cy w; rfl
  | cons g gs ih =>
    intro cx cy w
    obtain ⟨a, b, c2x, c2y, x, y⟩ := g
    simp only [Canto.rel6, Canto.flat6_cons, Canto.cLoop, Canto.CLoop,
      JNum.num_add_num, Canto.add_cancel_q, ih x y (JNum.num c2x, JNum.num c2y)]

theorem Canto.cLoop_eq_CLoop_cons (g : ℚ × ℚ × ℚ × ℚ × ℚ × ℚ)
    (gs : List (ℚ × ℚ × ℚ × ℚ × ℚ × ℚ)) (cx cy : ℚ) (wl ur wr : JNum × JNum) :
    Canto.cLoop (Canto.flat6 (Canto.rel6 (cx, cy) (g :: gs))) (JNum.num cx, JNum.num cy) wl =
      Canto.CLoop (Canto.flat6 (g :: gs)) ur wr := by
  obtain ⟨a, b, c2x, c2y, x, y⟩ := g
  simp only [Canto.rel6, Canto.flat6_cons, Canto.cLoop, Canto.CLoop, JNum.num_add_num,
    Canto.add_cancel_q, Canto.cLoop_eq_CLoop gs x y (JNum.num c2x, JNum.num c2y)]

theorem Canto.c_eq_C (st : CantoState) (cx cy : ℚ)
    (hx : st.currentX = JNum.num cx) (hy : st.currentY = JNum.num cy)
    (he : st.pathIsEmpty ≠ some true) (gs : List (ℚ × ℚ × ℚ × ℚ × ℚ × ℚ)) :
    Canto.c st (Canto.flat6 (Canto.rel6 (cx, cy) gs)) = Canto.C st (Canto.flat6 gs) := by
  cases gs with
  | nil =>
    have hc : Canto.check ([] : List JNum) 0 6 6 = false := by decide
    simp [Canto.rel6, Canto.flat6, Canto.c, Canto.C, hc]
  | cons g gs =>
    have hcr : Canto.check (Canto.flat6 (Canto.rel6 (cx, cy) (g :: gs))) 0 6 6 = true := by
      refine (Canto.check_eq_true_iff _ 6 (by norm_num)).mpr ?_
      rw [Canto.flat6_length, Canto.rel6_length]
      simp only [List.length_cons]
      omega
    have hca : Canto.check (Canto.flat6 (g :: gs)) 0 6 6 = true := by
      refine (Canto.check_eq_true_iff _ 6 (by norm_num)).mpr ?_
      rw [Canto.flat6_length]
      simp only [List.length_cons]
      omega
    unfold Canto.c Canto.C
    rw [hcr, hca]
    simp only [if_true]
    rw [if_neg (by rw [hx]; exact fun h => nomatch h)]
    unfold Canto.ensure
    rw [if_neg he]
    simp only [okR, Res.andThen, List.nil_append]
    rw [hx, hy, Canto.cLoop_eq_CLoop_cons g gs cx cy _
      (Canto.getArg (Canto.flat6 (g :: gs)) 4, Canto.getArg (Canto.flat6 (g :: gs)) 5)
      (Canto.getArg (Canto.flat6 (g :: gs)) 2, Canto.getArg (Canto.flat6 (g :: gs)) 3)]

theorem Canto.qLoop_eq_QLoop (gs : List (ℚ × ℚ × ℚ × ℚ)) :
    ∀ (cx cy : ℚ) (w : JNum × JNum),
    Canto.qLoop (Canto.flat4 (Canto.rel4 (cx, cy) gs)) (JNum.num cx, JNum.num cy) w =
      Canto.QLoop (Canto.flat4 gs) (JNum.num cx, JNum.num cy) w := by
  induction gs with
  | nil => intro cx cy w; rfl
  | cons g gs ih =>
    intro cx cy w
    obtain ⟨a, b, x, y⟩ := g
    simp only [Canto.rel4, Canto.flat4_cons, Canto.qLoop, Canto.QLoop,
      JNum.num_add_num, Canto.add_cancel_q, ih x y (JNum.num a, JNum.num b)]

theorem Canto.qLoop_eq_QLoop_cons (g : ℚ × ℚ × ℚ × ℚ) (gs : List (ℚ × ℚ × ℚ × ℚ))
    (cx cy : ℚ) (wl ur wr : JNum × JNum) :
    Canto.qLoop (Canto.flat4 (Canto.rel4 (cx, cy) (g :: gs))) (JNum.num cx, JNum.num cy) wl =
      Canto.QLoop (Canto.flat4 (g :: gs)) ur wr := by
  obtain ⟨a, b, x, y⟩ := g
  simp only [Canto.rel4, Canto.flat4_cons, Canto.qLoop, Canto.QLoop, JNum.num_add_num,
    Canto.add_cancel_q, Canto.qLoop_eq_QLoop gs x y (JNum.num a, JNum.num b)]

theorem Canto.q_eq_Q (st : CantoState) (cx cy : ℚ)
    (hx : st.currentX = JNum.num cx) (hy : st.currentY = JNum.num cy)
    (he : st.pathIsEmpty ≠ some true) (gs : List (ℚ × ℚ × ℚ × ℚ)) :
    Canto.q st (Canto.flat4 (Canto.rel4 (cx, cy) gs)) = Canto.Q st (Canto.flat4 gs) := by
  cases gs with
  | nil =>
    have hc : Canto.check ([] : List JNum) 0 4 4 = false := by decide
    simp [Canto.rel4, Canto.flat4, Canto.q, Canto.Q, hc]
  | cons g gs =>
    have hcr : Canto.check (Canto.flat4 (Canto.rel4 (cx, cy) (g :: gs))) 0 4 4 = true := by
      refine (Canto.check_eq_true_iff _ 4 four_ne_zero).mpr ?_
      rw [Canto.flat4_length, Canto.rel4_length]
      simp only [List.length_cons]
      omega
    have hca : Canto.check (Canto.flat4 (g :: gs)) 0 4 4 = true := by
      refine (Canto.check_eq_true_iff _ 4 four_ne_zero).mpr ?_
      rw [Canto.flat4_length]
      simp only [List.length_cons]
      omega
    unfold Canto.q Canto.Q
    rw [hcr, hca]
    simp only [if_true]
    rw [if_neg (by rw [hx]; exact fun h => nomatch h)]
    unfold Canto.ensure
    rw [if_neg he]
    simp only [okR, Res.andThen, List.nil_append]
    rw [hx, hy, Canto.qLoop_eq_QLoop_cons g gs cx cy _
      (Canto.getArg (Canto.flat4 (g :: gs)) 2, Canto.getArg (Canto.flat4 (g :: gs)) 3)
      (Canto.getArg (Canto.flat4 (g :: gs)) 0, Canto.getArg (Canto.flat4 (g :: gs)) 1)]

theorem Canto.sLoop_eq_SLoop (gs : List (ℚ × ℚ × ℚ × ℚ)) :
    ∀ (cx cy : ℚ) (w : JNum × JNum),
    Canto.sLoop (Canto.flat4 (Canto.rel4 (cx, cy) gs)) (JNum.num cx, JNum.num cy) w =
      Canto.SLoop (Canto.flat4 gs) (JNum.num cx, JNum.num cy) w := by
  induction gs with
  | nil => intro cx cy w; rfl
  | cons g gs ih =>
    intro cx cy w
    obtain ⟨a, b, x, y⟩ := g
    obtain ⟨w1, w2⟩ := w
    simp only [Canto.rel4, Canto.flat4_cons, Canto.sLoop, Canto.SLoop,
      JNum.num_add_num, Canto.add_cancel_q, ih x y (JNum.num a, JNum.num b)]

theorem Canto.s_eq_S (st : CantoState) (cx cy : ℚ)
    (hx : st.currentX = JNum.num cx) (hy : st.currentY = JNum.num cy)
    (gs : List (ℚ × ℚ × ℚ × ℚ)) :
    Canto.s st (Canto.flat4 (Canto.rel4 (cx, cy) gs)) = Canto.S st (Canto.flat4 gs) := by
  cases gs with
  | nil =>
    have hc : Canto.check ([] : List JNum) 0 4 4 = false := by decide
    simp [Canto.rel4, Canto.flat4, Canto.s, Canto.S, hc]
  | cons g gs =>
    have hcr : Canto.check (Canto.flat4 (Canto.rel4 (cx, cy) (g :: gs))) 0 4 4 = true := by
      refine (Canto.check_eq_true_iff _ 4 four_ne_zero).mpr ?_
      rw [Canto.flat4_length, Canto.rel4_length]
      simp only [List.length_cons]
      omega
    have hca : Canto.check (Canto.flat4 (g :: gs)) 0 4 4 = true := by
      refine (Canto.check_eq_true_iff _ 4 four_ne_zero).mpr ?_
      rw [Canto.flat4_length]
      simp only [List.length_cons]
      omega
    unfold Canto.s Canto.S
    rw [hcr, hca]
    simp only [if_true]
    cases hctrl : st.lastCCP with
    | none => simp only [hctrl]
    | some pc =>
      obtain ⟨w1, w2⟩ := pc
      simp only [hctrl]
      rw [if_neg (by rw [hx]; exact fun h => nomatch h)]
      rw [hx, hy, Canto.sLoop_eq_SLoop (g :: gs) cx cy (w1, w2)]
      rw [if_neg (fun h : JNum.num cx = JNum.undef => nomatch h)]

theorem Canto.tLoop_eq_TLoop (ps : List (ℚ × ℚ)) :
    ∀ (cx cy : ℚ) (w : JNum × JNum),
    Canto.tLoop (Canto.flat2 (Canto.relDeltas (cx, cy) ps)) (JNum.num cx, JNum.num cy) w =
      Canto.TLoop (Canto.flat2 ps) (JNum.num cx, JNum.num cy) w := by
  induction ps with
  | nil => intro cx cy w; rfl
  | cons p ps ih =>
    intro cx cy w
    obtain ⟨px, py⟩ := p
    obtain ⟨w1, w2⟩ := w
    simp only [Canto.relDeltas, Canto.flat2_cons, Canto.tLoop, Canto.TLoop,
      JNum.num_add_num, Canto.add_cancel_q,
      ih px py (JNum.num cx + (JNum.num cx - w1), JNum.num cy + (JNum.num cy - w2))]

theorem Canto.t_eq_T (st : CantoState) (cx cy : ℚ)
    (hx : st.currentX = JNum.num cx) (hy : st.currentY = JNum.num cy)
    (ps : List (ℚ × ℚ)) :
    Canto.t st (Canto.flat2 (Canto.relDeltas (cx, cy) ps)) = Canto.T st (Canto.flat2 ps) := by
  cases ps with
  | nil =>
    have hc : Canto.check ([] : List JNum) 0 2 2 = false := by decide
    simp [Canto.relDeltas, Canto.flat2, Canto.t, Canto.T, hc]
  | cons p ps =>
    have hcr : Canto.check (Canto.flat2 (Canto.relDeltas (cx, cy) (p :: ps))) 0 2 2 = true := by
      refine (Canto.check_eq_true_iff _ 2 two_ne_zero).mpr ?_
      rw [Canto.flat2_length, Canto.relDeltas_length]
      simp only [List.length_cons]
      omega
    have hca : Canto.check (Canto.flat2 (p :: ps)) 0 2 2 = true := by
      refine (Canto.check_eq_true_iff _ 2 two_ne_zero).mpr ?_
      rw [Canto.flat2_length]
      simp only [List.length_cons]
      omega
    unfold Canto.t Canto.T
    rw [hcr, hca]
    simp only [if_true]
    cases hctrl : st.lastQCP with
    | none => simp only [hctrl]
    | some pc =>
      obtain ⟨w1, w2⟩ := pc
      simp only [hctrl]
      rw [if_neg (by rw [hx]; exact fun h => nomatch h)]
      rw [hx, hy, Canto.tLoop_eq_TLoop (p :: ps) cx cy (w1, w2)]
      rw [if_neg (fun h : JNum.num cx = JNum.undef => nomatch h)]

theorem Canto.a_eq_A (tail : ArcTail) (st : CantoState) (cx cy : ℚ)
    (hx : st.currentX = JNum.num cx) (hy : st.currentY = JNum.num cy)
    (rx ry rot bg cw x y : ℚ) :
    Canto.a tail st
        [JNum.num rx, JNum.num ry, JNum.num rot, JNum.num bg, JNum.num cw,
         JNum.num (x - cx), JNum.num (y - cy)] =
      Canto.A tail st
        [JNum.num rx, JNum.num ry, JNum.num rot, JNum.num bg, JNum.num cw,
         JNum.num x, JNum.num y] := by
  unfold Canto.a
  rw [if_neg (by rw [hx]; exact fun h => nomatch h)]
  simp only [Canto.getArg_zero, Canto.getArg_succ, hx, hy, JNum.num_add_num, Canto.sub_add_q]

/-- C1: with a defined current point `(cx, cy)` (and hence a nonempty path
— `setcurrent` forces `_pathIsEmpty = false` whenever it defines the
current point), every absolute command with a relative counterpart
produces exactly the result of that counterpart invoked with each
coordinate group replaced by its offsets from the current point as it
stands when that group is processed (the invocation current point for the
first group, the previous group's endpoint afterwards): same primitive
sequence, same final state, same error behaviour.  Covered pairs: line,
move (nonempty argument lists), horizontal, vertical, cubic, quadratic,
smooth cubic, smooth quadratic, and the elliptical arc for every arc
tail. -/
theorem Canto.relative_matches_absolute (tail : ArcTail) (st : CantoState) (cx cy : ℚ)
    (hx : st.currentX = JNum.num cx) (hy : st.currentY = JNum.num cy)
    (he : st.pathIsEmpty ≠ some true) :
    (∀ ps : List (ℚ × ℚ),
      Canto.l st (Canto.flat2 (Canto.relDeltas (cx, cy) ps)) = Canto.L st (Canto.flat2 ps)) ∧
    (∀ ps : List (ℚ × ℚ), ps ≠ [] →
      Canto.m st (Canto.flat2 (Canto.relDeltas (cx, cy) ps)) = Canto.M st (Canto.flat2 ps)) ∧
    (∀ xs : List ℚ,
      Canto.h st ((Canto.relDeltas1 cx xs).map JNum.num) = Canto.H st (xs.map JNum.num)) ∧
    (∀ ys : List ℚ,
      Canto.v st ((Canto.relDeltas1 cy ys).map JNum.num) = Canto.V st (ys.map JNum.num)) ∧
    (∀ gs : List (ℚ × ℚ × ℚ × ℚ × ℚ × ℚ),
      Canto.c st (Canto.flat6 (Canto.rel6 (cx, cy) gs)) = Canto.C st (Canto.flat6 gs)) ∧
    (∀ gs : List (ℚ × ℚ × ℚ × ℚ),
      Canto.q st (Canto.flat4 (Canto.rel4 (cx, cy) gs)) = Canto.Q st (Canto.flat4 gs)) ∧
    (∀ gs : List (ℚ × ℚ × ℚ × ℚ),
      Canto.s st (Canto.flat4 (Canto.rel4 (cx, cy) gs)) = Canto.S st (Canto.flat4 gs)) ∧
    (∀ ps : List (ℚ × ℚ),
      Canto.t st (Canto.flat2 (Canto.relDeltas (cx, cy) ps)) = Canto.T st (Canto.flat2 ps)) ∧
    (∀ rx ry rot bg cw x y : ℚ,
      Canto.a tail st
          [JNum.num rx, JNum.num ry, JNum.num rot, JNum.num bg, JNum.num cw,
           JNum.num (x - cx), JNum.num (y - cy)] =
        Canto.A tail st
          [JNum.num rx, JNum.num ry, JNum.num rot, JNum.num bg, JNum.num cw,
           JNum.num x, JNum.num y]) :=
  ⟨Canto.l_eq_L st cx cy hx hy he,
   Canto.m_eq_M st cx cy hx hy he,
   Canto.h_eq_H st cx cy hx hy he,
   Canto.v_eq_V st cx cy hx hy he,
   Canto.c_eq_C st cx cy hx hy he,
   Canto.q_eq_Q st cx cy hx hy he,
   Canto.s_eq_S st cx cy hx hy,
   Canto.t_eq_T st cx cy hx hy,
   Canto.a_eq_A tail st cx cy hx hy⟩

/-- Witness for C1: the line conjunct at the state with current point
`(3, 4)` and one absolute pair `(10, 20)`. -/
theorem Canto.relative_matches_absolute_witness :
    Canto.l Canto.exampleCurrent (Canto.flat2 (Canto.relDeltas (3, 4) [(10, 20)])) =
      Canto.L Canto.exampleCurrent (Canto.flat2 [(10, 20)]) :=
  (Canto.relative_matches_absolute Canto.trivialTail Canto.exampleCurrent 3 4 rfl rfl
    (by simp [Canto.exampleCurrent])).1 [(10, 20)]

theorem Res.andThen_err_ne (e : JErr) (r : Res) (f : CantoState → Res)
    (h1 : r.err ≠ some e) (h2 : ∀ s, (f s).err ≠ some e) : (r.andThen f).err ≠ some e := by
  unfold Res.andThen
  cases hr : r.err with
  | none => simp only [hr]; exact h2 r.state
  | some x => simp only [hr]; rw [hr] at h1; exact h1

theorem Canto.ensure_err (st : CantoState) (x y : JNum) : (Canto.ensure st x y).err = none := by
  unfold Canto.ensure
  split <;> rfl

theorem Canto.L_not_malformed (st : CantoState) (args : List JNum) :
    (Canto.L st args).err ≠ some JErr.malformedPath := by
  unfold Canto.L
  split
  · apply Res.andThen_err_ne
    · rw [Canto.ensure_err]; exact fun h => nomatch h
    · intro s; simp [okR]
  · simp [throwR]

theorem Canto.l_not_malformed (st : CantoState) (args : List JNum) :
    (Canto.l st args).err ≠ some JErr.malformedPath := by
  unfold Canto.l
  split
  · split
    · simp [throwR]
    · simp [okR]
  · simp [throwR]

theorem Canto.M_not_malformed (st : CantoState) (args : List JNum) :
    (Canto.M st args).err ≠ some JErr.malformedPath := by
  unfold Canto.M
  apply Res.andThen_err_ne
  · simp [Canto.M2, okR]
  · intro s
    split
    · exact Canto.L_not_malformed s (args.drop 2)
    · simp [okR]

theorem Canto.m_not_malformed (st : CantoState) (args : List JNum) :
    (Canto.m st args).err ≠ some JErr.malformedPath := by
  unfold Canto.m
  split
  · dsimp only
    rw [if_neg (fun h : JNum.num 0 = JNum.undef => nomatch h)]
    apply Res.andThen_err_ne
    · simp [Canto.M2, okR]
    · intro s
      split
      · exact Canto.l_not_malformed s (args.drop 2)
      · simp [okR]
  · dsimp only
    split
    · simp [throwR]
    · apply Res.andThen_err_ne
      · simp [Canto.M2, okR]
      · intro s
        split
        · exact Canto.l_not_malformed s (args.drop 2)
        · simp [okR]

theorem Canto.z_not_malformed (st : CantoState) :
    (Canto.z st).err ≠ some JErr.malformedPath := by
  simp [Canto.z, okR]

theorem Canto.HLoop_not_malformed (args : List JNum) :
    ∀ st : CantoState, (Canto.HLoop st args).err ≠ some JErr.malformedPath := by
  induction args with
  | nil => intro st; simp [Canto.HLoop, okR]
  | cons x rest ih =>
    intro st
    unfold Canto.HLoop
    exact Res.andThen_err_ne _ _ _ (Canto.L_not_malformed st [x, st.currentY]) fun s => ih s

theorem Canto.H_not_malformed (st : CantoState) (args : List JNum) :
    (Canto.H st args).err ≠ some JErr.malformedPath := by
  unfold Canto.H
  split
  · simp [throwR]
  · exact Canto.HLoop_not_malformed args st

theorem Canto.hLoop_not_malformed (args : List JNum) :
    ∀ st : CantoState, (Canto.hLoop st args).err ≠ some JErr.malformedPath := by
  induction args with
  | nil => intro st; simp [Canto.hLoop, okR]
  | cons d rest ih =>
    intro st
    unfold Canto.hLoop
    exact Res.andThen_err_ne _ _ _ (Canto.l_not_malformed st [d, JNum.num 0]) fun s => ih s

theorem Canto.h_not_malformed (st : CantoState) (args : List JNum) :
    (Canto.h st args).err ≠ some JErr.malformedPath :=
  Canto.hLoop_not_malformed args st

theorem Canto.VLoop_not_malformed (args : List JNum) :
    ∀ st : CantoState, (Canto.VLoop st args).err ≠ some JErr.malformedPath := by
  induction args with
  | nil => intro st; simp [Canto.VLoop, okR]
  | cons y rest ih =>
    intro st
    unfold Canto.VLoop
    exact Res.andThen_err_ne _ _ _ (Canto.L_not_malformed st [st.currentX, y]) fun s => ih s

theorem Canto.V_not_malformed (st : CantoState) (args : List JNum) :
    (Canto.V st args).err ≠ some JErr.malformedPath := by
  unfold Canto.V
  split
  · simp [throwR]
  · exact Canto.VLoop_not_malformed args st

theorem Canto.vLoop_not_malformed (args : List JNum) :
    ∀ st : CantoState, (Canto.vLoop st args).err ≠ some JErr.malformedPath := by
  induction args with
  | nil => intro st; simp [Canto.vLoop, okR]
  | cons d rest ih =>
    intro st
    unfold Canto.vLoop
    exact Res.andThen_err_ne _ _ _ (Canto.l_not_malformed st [JNum.num 0, d]) fun s => ih s

theorem Canto.v_not_malformed (st : CantoState) (args : List JNum) :
    (Canto.v st args).err ≠ some JErr.malformedPath :=
  Canto.vLoop_not_malformed args st

theorem Canto.C_not_malformed (st : CantoState) (args : List JNum) :
    (Canto.C st args).err ≠ some JErr.malformedPath := by
  unfold Canto.C
  split
  · apply Res.andThen_err_ne
    · rw [Canto.ensure_err]; exact fun h => nomatch h
    · intro s; simp [okR]
  · simp [throwR]

theorem Canto.c_not_malformed (st : CantoState) (args : List JNum) :
    (Canto.c st args).err ≠ some JErr.malformedPath := by
  unfold Canto.c
  split
  · split
    · simp [throwR]
    · simp [okR]
  · simp [throwR]

theorem Canto.Q_not_malformed (st : CantoState) (args : List JNum) :
    (Canto.Q st args).err ≠ some JErr.malformedPath := by
  unfold Canto.Q
  split
  · apply Res.andThen_err_ne
    · rw [Canto.ensure_err]; exact fun h => nomatch h
    · intro s; simp [okR]
  · simp [throwR]

theorem Canto.q_not_malformed (st : CantoState) (args : List JNum) :
    (Canto.q st args).err ≠ some JErr.malformedPath := by
  unfold Canto.q
  split
  · split
    · simp [throwR]
    · simp [okR]
  · simp [throwR]

theorem Canto.S_not_malformed (st : CantoState) (args : List JNum) :
    (Canto.S st args).err ≠ some JErr.malformedPath := by
  unfold Canto.S
  split
  · split
    · simp [throwR]
    · split
      · simp [throwR]
      · simp [okR]
  · simp [throwR]

theorem Canto.s_not_malformed (st : CantoState) (args : List JNum) :
    (Canto.s st args).err ≠ some JErr.malformedPath := by
  unfold Canto.s
  split
  · split
    · simp [throwR]
    · split
      · simp [throwR]
      · simp [okR]
  · simp [throwR]

theorem Canto.T_not_malformed (st : CantoState) (args : List JNum) :
    (Canto.T st args).err ≠ some JErr.malformedPath := by
  unfold Canto.T
  split
  · split
    · simp [throwR]
    · split
      · simp [throwR]
      · simp [okR]
  · simp [throwR]

theorem Canto.t_not_malformed (st : CantoState) (args : List JNum) :
    (Canto.t st args).err ≠ some JErr.malformedPath := by
  unfold Canto.t
  split
  · split
    · simp [throwR]
    · split
      · simp [throwR]
      · simp [okR]
  · simp [throwR]

theorem Canto.A_not_malformed (tail : ArcTail) (st : CantoState) (args : List JNum) :
    (Canto.A tail st args).err ≠ some JErr.malformedPath := by
  unfold Canto.A
  split
  · exact Canto.L_not_malformed st _
  · split
    · simp [throwR]
    · simp [okR]

theorem Canto.a_not_malformed (tail : ArcTail) (st : CantoState) (args : List JNum) :
    (Canto.a tail st args).err ≠ some JErr.malformedPath := by
  unfold Canto.a
  split
  · simp [throwR]
  · exact Canto.A_not_malformed tail st _

set_option maxHeartbeats 2000000 in
theorem Canto.dispatch_not_malformed (tail : ArcTail) (st : CantoState) (ch : Char)
    (nums : List ℚ) (hl : Canto.isPathLetter ch = true) :
    (Canto.dispatch tail st ch nums).err ≠ some JErr.malformedPath := by
  unfold Canto.dispatch
  split <;>
    first
      | exact Canto.M_not_malformed _ _
      | exact Canto.m_not_malformed _ _
      | exact Canto.L_not_malformed _ _
      | exact Canto.l_not_malformed _ _
      | exact Canto.z_not_malformed _
      | exact Canto.H_not_malformed _ _
      | exact Canto.h_not_malformed _ _
      | exact Canto.V_not_malformed _ _
      | exact Canto.v_not_malformed _ _
      | exact Canto.C_not_malformed _ _
      | exact Canto.c_not_malformed _ _
      | exact Canto.Q_not_malformed _ _
      | exact Canto.q_not_malformed _ _
      | exact Canto.S_not_malformed _ _
      | exact Canto.s_not_malformed _ _
      | exact Canto.T_not_malformed _ _
      | exact Canto.t_not_malformed _ _
      | exact Canto.A_not_malformed _ _ _
      | exact Canto.a_not_malformed _ _ _
      | simp_all [Canto.isPathLetter]

theorem Canto.runElts_not_malformed (tail : ArcTail) (elts : List (Char × List ℚ)) :
    ∀ st : CantoState, (∀ e ∈ elts, Canto.isPathLetter e.1 = true) →
      (Canto.runElts tail st elts).err ≠ some JErr.malformedPath := by
  induction elts with
  | nil => intro st _; simp [Canto.runElts, okR]
  | cons e rest ih =>
    intro st hall
    obtain ⟨ch, ns⟩ := e
    unfold Canto.runElts
    apply Res.andThen_err_ne
    · exact Canto.dispatch_not_malformed tail st ch ns (hall (ch, ns) (List.mem_cons_self _ _))
    · intro s
      exact ih s fun e' he' => hall e' (List.mem_cons_of_mem _ he')

theorem Canto.tokenizeF_letters (fuel : ℕ) : ∀ (cs : List Char) (e : Char × List ℚ),
    e ∈ Canto.tokenizeF fuel cs → Canto.isPathLetter e.1 = true := by
  induction fuel with
  | zero => intro cs e he; simp [Canto.tokenizeF] at he
  | succ fuel ih =>
    intro cs e he
    cases cs with
    | nil => simp [Canto.tokenizeF] at he
    | cons ch rest =>
      by_cases hch : Canto.isPathLetter ch = true
      · simp only [Canto.tokenizeF] at he
        rw [if_pos hch] at he
        rcases List.mem_cons.mp he with rfl | he2
        · exact hch
        · exact ih _ e he2
      · simp only [Canto.tokenizeF] at he
        rw [if_neg hch] at he
        exact ih rest e he

/-- C9: the string-grammar entry point throws the malformed-path error
exactly when the input tokenizes to no recognisable path elements or some
element's command letter is unrecognised (the second disjunct is vacuous:
the tokenizer only produces recognised letters, as
`Canto.tokenizeF_letters` shows); for every input with at least one
element it is precisely the sequential dispatch of each element's parsed
numbers to the command named by its letter. -/
theorem Canto.svgpath_malformed_iff (tail : ArcTail) (st : CantoState) (text : List Char) :
    ((Canto.svgpath tail st text).err = some JErr.malformedPath ↔
      Canto.tokenize text = [] ∨
        ∃ e ∈ Canto.tokenize text, Canto.isPathLetter e.1 = false) ∧
    (Canto.tokenize text ≠ [] →
      Canto.svgpath tail st text = Canto.runElts tail st (Canto.tokenize text)) := by
  have hrun : Canto.tokenize text ≠ [] →
      Canto.svgpath tail st text = Canto.runElts tail st (Canto.tokenize text) := by
    intro hne
    simp only [Canto.svgpath]
    rw [if_neg (by simpa using hne)]
  refine ⟨⟨fun herr => ?_, fun h => ?_⟩, hrun⟩
  · left
    by_contra hne
    rw [hrun hne] at herr
    exact Canto.runElts_not_malformed tail (Canto.tokenize text) st
      (fun e he => Canto.tokenizeF_letters text.length text e he) herr
  · rcases h with h | ⟨e, he, hbad⟩
    · simp only [Canto.svgpath, h]
      rfl
    · have := Canto.tokenizeF_letters text.length text e he
      rw [this] at hbad
      exact absurd hbad (by simp)

/-- Witness for C9: a string with no recognisable elements throws, and the
spec's example string dispatches to move/line/line/close. -/
theorem Canto.svgpath_malformed_iff_witness :
    (Canto.svgpath Canto.trivialTail Canto.initState "xy 12 34".toList).err =
      some JErr.malformedPath ∧
    Canto.svgpath Canto.trivialTail Canto.initState "M0 0 L10 0 L10 10 Z".toList =
      Canto.runElts Canto.trivialTail Canto.initState
        (Canto.tokenize "M0 0 L10 0 L10 10 Z".toList) :=
  ⟨(Canto.svgpath_malformed_iff Canto.trivialTail Canto.initState
      "xy 12 34".toList).1.mpr (Or.inl (by decide)),
   (Canto.svgpath_malformed_iff Canto.trivialTail Canto.initState
      "M0 0 L10 0 L10 10 Z".toList).2 (by decide)⟩

/-- C4: in the endpoint-to-centre conversion, whenever
`lambda = x1'^2/rx^2 + y1'^2/ry^2` exceeds 1 both radii are scaled by
`sqrt lambda` — so their ratio is preserved — and the local-frame centre
offset is `(0, 0)`; whenever `lambda ≤ 1` the centre offset uses the root
`t0` of the standard quadratic with sign factor `-1` exactly when
`largeArcFlag = sweepFlag` and `+1` otherwise. -/
theorem Canto.arc_radii_center_correction (rx ry x1p y1p : ℝ) (big clockwise : Bool)
    (hrx : 0 < rx) (hry : 0 < ry) :
    (1 < Canto.arcLambda rx ry x1p y1p →
      Canto.arcRadiiCenter rx ry x1p y1p big clockwise =
        (rx * Real.sqrt (Canto.arcLambda rx ry x1p y1p),
         ry * Real.sqrt (Canto.arcLambda rx ry x1p y1p), 0, 0) ∧
      rx * Real.sqrt (Canto.arcLambda rx ry x1p y1p) /
          (ry * Real.sqrt (Canto.arcLambda rx ry x1p y1p)) = rx / ry) ∧
    (Canto.arcLambda rx ry x1p y1p ≤ 1 →
      Canto.arcRadiiCenter rx ry x1p y1p big clockwise =
        (rx, ry,
         (if big = clockwise then (-1 : ℝ) else 1) *
             Real.sqrt (rx * rx * (ry * ry) /
               (rx * rx * (y1p * y1p) + ry * ry * (x1p * x1p)) - 1) * rx * y1p / ry,
         -((if big = clockwise then (-1 : ℝ) else 1) *
             Real.sqrt (rx * rx * (ry * ry) /
               (rx * rx * (y1p * y1p) + ry * ry * (x1p * x1p)) - 1)) * ry * x1p / rx)) := by
  have hax : |rx| = rx := abs_of_pos hrx
  have hay : |ry| = ry := abs_of_pos hry
  constructor
  · intro hl
    have hs : Real.sqrt (Canto.arcLambda rx ry x1p y1p) ≠ 0 :=
      ne_of_gt (Real.sqrt_pos.mpr (by linarith))
    constructor
    · simp only [Canto.arcRadiiCenter]
      rw [hax, hay, if_pos hl]
    · rw [mul_comm rx (Real.sqrt (Canto.arcLambda rx ry x1p y1p)),
          mul_comm ry (Real.sqrt (Canto.arcLambda rx ry x1p y1p)),
          mul_div_mul_left _ _ hs]
  · intro hl
    simp only [Canto.arcRadiiCenter]
    rw [hax, hay, if_neg (not_lt.mpr hl)]
    by_cases hbc : big = clockwise
    · simp only [if_pos hbc, Prod.mk.injEq, true_and, eq_self_iff_true]
      exact ⟨by ring, by ring⟩
    · simp only [if_neg hbc, Prod.mk.injEq, true_and, eq_self_iff_true]
      exact ⟨by ring, by ring⟩

/-- Witness for C4: radii `1, 1` with local chord `(2, 0)` give
`lambda = 4 > 1`, so the radii are scaled by `sqrt lambda` with ratio
preserved and the centre offset is zero. -/
theorem Canto.arc_radii_center_correction_witness :
    Canto.arcRadiiCenter 1 1 2 0 true false =
      ((1 : ℝ) * Real.sqrt (Canto.arcLambda 1 1 2 0),
       (1 : ℝ) * Real.sqrt (Canto.arcLambda 1 1 2 0), 0, 0) ∧
    (1 : ℝ) * Real.sqrt (Canto.arcLambda 1 1 2 0) /
        ((1 : ℝ) * Real.sqrt (Canto.arcLambda 1 1 2 0)) = 1 / 1 :=
  (Canto.arc_radii_center_correction 1 1 2 0 true false one_pos one_pos).1
    (by norm_num [Canto.arcLambda])
